import Mathlib

/-!
# Verification of the aisbot agent runtime

A shallow embedding, in Lean 4, of the parts of the `aisbot` repository that
its specification makes checkable claims about:

* tool-argument validation against JSON Schemas
  (`src/aisbot/agent/loop.py`, `_validate_mcp_params` and
  `_MCPToolWrapper.validate_params`);
* the context-compression engine (`src/aisbot/agent/compression.py`) and
  tool-result compression (`src/aisbot/agent/context.py`);
* the MCP verification-and-call dispatcher
  (`src/aisbot/agent/loop.py`, `_execute_mcp_tool`);
* the agent loop's iteration bound and canned terminal replies
  (`src/aisbot/agent/loop.py`, `_process_message` / `_process_system_message`);
* the bus providers' JSON envelope encoding and decoding
  (`src/aisbot/bus/dds_provider.py`, `src/aisbot/bus/zenoh_provider.py`) and
  the outbound dispatch loops (`src/aisbot/bus/squeue.py`,
  `src/aisbot/bus/dds_provider.py`).

Python strings are modelled as `List Char`, Python floats appearing as the
literal ratios 0.3 / 0.4 / 0.5 / 0.7 as exact rationals (every theorem is
evaluated only where the IEEE-754 double of the literal and its decimal value
produce the same integer results), and Python exceptions as `Except` values.
External collaborators (the LLM provider, the MCP remote call, the transport
fabric) are modelled as function parameters.
-/

set_option maxRecDepth 1000000

namespace Aisbot

/-- Single-quote character as a string; the Python source quotes parameter,
server and tool names inside diagnostic messages with it. -/
def sq : String := String.singleton (Char.ofNat 39)

/-- A nonnegative ratio, as an exact numerator/denominator pair.  The Python
source passes the float constants 0.3 / 0.4 / 0.5 as `target_ratio`; they are
modelled by their decimal values (3/10, 2/5, 1/2).  Every concrete theorem
below is evaluated only at points where the IEEE-754 double of the literal
and its exact decimal value produce the same integer results. -/
structure PyRatio where
  num : Nat
  den : Nat
deriving DecidableEq

/-- Python `int(n * ratio)` for a natural `n` and a nonnegative ratio:
exact multiplication followed by truncation (= floor here). -/
def pyIntMul (n : Nat) (r : PyRatio) : Nat := n * r.num / r.den

/-! ## Python runtime values and JSON-Schema parameter validation

`loop.py` validates tool arguments with `isinstance` checks.  `PyVal` carries
the constructors those checks distinguish.  NOTE: in CPython `bool` is a
subclass of `int`, so `isinstance(True, int)` and
`isinstance(True, (int, float))` are both true; `isinstanceInt` and
`isinstanceNumber` reproduce exactly that. -/

inductive PyVal where
  | str (s : String)
  | int (n : Int)
  | float (q : ℚ)
  | bool (b : Bool)
  | list (xs : List PyVal)
  | dict (entries : List (String × PyVal))
  | none

/-- `type(v).__name__` for the values above. -/
def PyVal.typeName : PyVal → String
  | .str _ => "str"
  | .int _ => "int"
  | .float _ => "float"
  | .bool _ => "bool"
  | .list _ => "list"
  | .dict _ => "dict"
  | .none => "NoneType"

/-- `isinstance(v, str)`. -/
def isinstanceStr : PyVal → Bool
  | .str _ => true
  | _ => false

/-- `isinstance(v, (int, float))` — true for Python booleans as well, because
`bool` is a subclass of `int`. -/
def isinstanceNumber : PyVal → Bool
  | .int _ => true
  | .bool _ => true
  | .float _ => true
  | _ => false

/-- `isinstance(v, int)` — true for Python booleans (`bool` subclasses `int`),
false for floats. -/
def isinstanceInt : PyVal → Bool
  | .int _ => true
  | .bool _ => true
  | _ => false

/-- `isinstance(v, bool)`. -/
def isinstanceBool : PyVal → Bool
  | .bool _ => true
  | _ => false

/-- `isinstance(v, list)`. -/
def isinstanceList : PyVal → Bool
  | .list _ => true
  | _ => false

/-- `isinstance(v, dict)`. -/
def isinstanceDict : PyVal → Bool
  | .dict _ => true
  | _ => false

/-- The slice of a top-level JSON Schema object that the validators read:
`schema.get("type")`, `schema.get("properties", {})` with each property's
declared `"type"`, and `schema.get("required", [])`.  An absent or empty
schema dict is modelled as `Option.none` at the use sites (Python's
`not schema`; an empty dict also has `get("type") = None`). -/
structure MCPParamsSchema where
  typ : Option String
  properties : List (String × Option String)
  required : List String
deriving DecidableEq

/-- `properties.get(param_name)` — `Option.none` when the key is absent. -/
def propLookup (properties : List (String × Option String)) (name : String) :
    Option (Option String) :=
  (properties.find? (fun p => p.1 == name)).map Prod.snd

/-- The `if/elif` chain over `param_schema.get("type")` in both validators:
returns the error message for a mismatch, `Option.none` when the value
matches or the declared type is not one of the six primitive names. -/
def checkParamType (param_name : String) (param_value : PyVal)
    (param_type : Option String) : Option String :=
  if param_type = some "string" then
    if isinstanceStr param_value then Option.none
    else some ("Parameter " ++ sq ++ param_name ++ sq ++ " must be string, got "
      ++ param_value.typeName)
  else if param_type = some "number" then
    if isinstanceNumber param_value then Option.none
    else some ("Parameter " ++ sq ++ param_name ++ sq ++ " must be number, got "
      ++ param_value.typeName)
  else if param_type = some "integer" then
    if isinstanceInt param_value then Option.none
    else some ("Parameter " ++ sq ++ param_name ++ sq ++ " must be integer, got "
      ++ param_value.typeName)
  else if param_type = some "boolean" then
    if isinstanceBool param_value then Option.none
    else some ("Parameter " ++ sq ++ param_name ++ sq ++ " must be boolean, got "
      ++ param_value.typeName)
  else if param_type = some "array" then
    if isinstanceList param_value then Option.none
    else some ("Parameter " ++ sq ++ param_name ++ sq ++ " must be array, got "
      ++ param_value.typeName)
  else if param_type = some "object" then
    if isinstanceDict param_value then Option.none
    else some ("Parameter " ++ sq ++ param_name ++ sq ++ " must be object, got "
      ++ param_value.typeName)
  else Option.none

/-- Shared body of the two (textually identical) validators in `loop.py`:
early return `[]` unless the schema is a dict with `"type": "object"`; then
one error per missing required key (Python iterates a `set` here — we keep
the list order after deduplication, which fixes one of the unspecified
orders), then one error per provided key that is unknown or ill-typed, in
argument order. -/
def validateParamsCore (params : List (String × PyVal))
    (schema : Option MCPParamsSchema) : List String :=
  match schema with
  | Option.none => []
  | some s =>
    if s.typ ≠ some "object" then []
    else
      let requiredErrors := s.required.eraseDups.filterMap (fun req =>
        if params.any (fun p => p.1 == req) then Option.none
        else some ("Missing required parameter: " ++ sq ++ req ++ sq))
      let typeErrors := params.filterMap (fun p =>
        match propLookup s.properties p.1 with
        | Option.none => some ("Unknown parameter: " ++ sq ++ p.1 ++ sq)
        | some param_type => checkParamType p.1 p.2 param_type)
      requiredErrors ++ typeErrors

/-- `AgentLoop._validate_mcp_params` (src/aisbot/agent/loop.py:238-294). -/
def _validate_mcp_params (params : List (String × PyVal))
    (schema : Option MCPParamsSchema) : List String :=
  validateParamsCore params schema

/-- `_MCPToolWrapper.validate_params` (src/aisbot/agent/loop.py:690-733);
its body is a copy of `_validate_mcp_params` reading `self._parameters`. -/
def MCPToolWrapper.validate_params (parameters : Option MCPParamsSchema)
    (params : List (String × PyVal)) : List String :=
  validateParamsCore params parameters

/-- A top-level object schema declaring the single property `pname` of the
given primitive type, with no required keys. -/
def objSchema1 (pname typ : String) : Option MCPParamsSchema :=
  some ⟨some "object", [(pname, some typ)], []⟩

/-- C1, counterexample: a Python boolean value passes validation against a
property declared `"integer"` and against one declared `"number"` — no error
is produced, in both the dispatcher's check and the per-tool
`validate_params` — because CPython's `bool` is a subclass of `int`.  This
refutes the claim that a boolean satisfies neither and that validation then
returns an error naming the parameter. -/
theorem c1_counterexample :
    _validate_mcp_params [("x", PyVal.bool true)] (objSchema1 "x" "integer") = []
  ∧ _validate_mcp_params [("x", PyVal.bool true)] (objSchema1 "x" "number") = []
  ∧ MCPToolWrapper.validate_params (objSchema1 "x" "integer")
      [("x", PyVal.bool true)] = []
  ∧ MCPToolWrapper.validate_params (objSchema1 "x" "number")
      [("x", PyVal.bool true)] = [] := by
  refine ⟨?_, ?_, ?_, ?_⟩ <;> decide

/-- C1, amended: against a top-level object schema, in both validators, an
integer value satisfies a property declared `"number"`; a float value does
not satisfy `"integer"` and validation returns an error message naming the
parameter; but a boolean value satisfies both `"integer"` and `"number"`
(CPython `bool` subclasses `int`), so no error is produced for booleans. -/
theorem c1_amended : ∀ (pname : String) (n : Int) (q : ℚ) (b : Bool),
    _validate_mcp_params [(pname, PyVal.int n)] (objSchema1 pname "number") = []
  ∧ _validate_mcp_params [(pname, PyVal.float q)] (objSchema1 pname "integer")
      = ["Parameter " ++ sq ++ pname ++ sq ++ " must be integer, got "
          ++ "float"]
  ∧ _validate_mcp_params [(pname, PyVal.bool b)] (objSchema1 pname "integer") = []
  ∧ _validate_mcp_params [(pname, PyVal.bool b)] (objSchema1 pname "number") = []
  ∧ MCPToolWrapper.validate_params (objSchema1 pname "number")
      [(pname, PyVal.int n)] = []
  ∧ MCPToolWrapper.validate_params (objSchema1 pname "integer")
      [(pname, PyVal.float q)]
      = ["Parameter " ++ sq ++ pname ++ sq ++ " must be integer, got "
          ++ "float"]
  ∧ MCPToolWrapper.validate_params (objSchema1 pname "integer")
      [(pname, PyVal.bool b)] = []
  ∧ MCPToolWrapper.validate_params (objSchema1 pname "number")
      [(pname, PyVal.bool b)] = [] := by
  intro pname n q b
  refine ⟨?_, ?_, ?_, ?_, ?_, ?_, ?_, ?_⟩ <;>
    simp [_validate_mcp_params, MCPToolWrapper.validate_params,
      validateParamsCore, objSchema1, propLookup, checkParamType,
      isinstanceInt, isinstanceNumber, PyVal.typeName,
      show List.eraseDups ([] : List String) = [] from rfl]

/-- C10: whenever the cached parameters schema is empty/absent (Python
`not schema`) or its top-level `"type"` is not `"object"`, both validators
return no errors at all, for every argument map — unknown keys and missing
fields included. -/
theorem c10_lenient_schema_accepts_everything :
    ∀ (params : List (String × PyVal)) (schema : Option MCPParamsSchema),
    (schema = Option.none ∨ ∃ s, schema = some s ∧ s.typ ≠ some "object") →
    _validate_mcp_params params schema = []
  ∧ MCPToolWrapper.validate_params schema params = [] := by
  intro params schema h
  rcases h with h | ⟨s, rfl, hs⟩
  · subst h
    exact ⟨rfl, rfl⟩
  · constructor <;>
      simp [_validate_mcp_params, MCPToolWrapper.validate_params,
        validateParamsCore, hs]

/-- C10, witness: a schema whose top-level type is absent (as in an empty
dict) accepts an arbitrary argument map with an unknown key and a missing
"required" key. -/
theorem c10_witness :
    _validate_mcp_params [("zzz", PyVal.str "q"), ("y", PyVal.int 1)]
      (some ⟨Option.none, [], ["path"]⟩) = []
  ∧ MCPToolWrapper.validate_params (some ⟨Option.none, [], ["path"]⟩)
      [("zzz", PyVal.str "q"), ("y", PyVal.int 1)] = [] :=
  c10_lenient_schema_accepts_everything
    [("zzz", PyVal.str "q"), ("y", PyVal.int 1)]
    (some ⟨Option.none, [], ["path"]⟩)
    (Or.inr ⟨⟨Option.none, [], ["path"]⟩, rfl, by decide⟩)

/-! ## Compression strategies (src/aisbot/agent/compression.py)

Python strings are `List Char` here (`PyStr`); `len`, slicing, `rfind`,
`split`, `join` and `strip` are modelled element-wise.  The summary strategy's
LLM call is a function parameter returning `Option` (`Option.none` models the
exception path). -/

abbrev PyStr := List Char

/-- The `"..."` suffix the truncation strategy appends. -/
def ellipsis : PyStr := ['.', '.', '.']

/-- Python `s.rfind(c)`: highest index of `c` in `s`, `-1` when absent. -/
def pyRfind (s : PyStr) (c : Char) : Int :=
  match s.reverse.findIdx? (fun x => x == c) with
  | Option.none => -1
  | some i => (s.length : Int) - 1 - i

/-- Python `s.strip()` (whitespace at both ends). -/
def pyStrip (s : PyStr) : PyStr :=
  ((s.dropWhile Char.isWhitespace).reverse.dropWhile Char.isWhitespace).reverse

/-- Python `pattern in text` for strings: substring containment. -/
def pyContains (text pattern : PyStr) : Bool :=
  (List.range (text.length + 1)).any (fun i => pattern.isPrefixOf (text.drop i))

/-- Python `text.split(sep)` for a non-empty separator: non-overlapping
occurrences, scanned left to right.  The fuel argument is the input length:
every step consumes at least one character. -/
def pySplitSeq (sep : PyStr) : Nat → PyStr → List PyStr
  | _, [] => [[]]
  | 0, s => [s]
  | fuel + 1, c :: rest =>
    if sep.isPrefixOf (c :: rest) then
      [] :: pySplitSeq sep fuel ((c :: rest).drop sep.length)
    else
      match pySplitSeq sep fuel rest with
      | [] => [[c]]
      | h :: t => (c :: h) :: t

/-- Python `text.split(sep)`. -/
def pySplit (sep text : PyStr) : List PyStr :=
  pySplitSeq sep text.length text

/-- `TruncationStrategy.compress` (compression.py:85-104).  Content shorter
than 200 characters is returned unchanged; otherwise it is sliced to
`int(len * ratio)` characters, extended back to the last `.` or newline when
that break point lies past 70% of the slice, and suffixed with `"..."` when
anything was cut. -/
def truncationCompress (content : PyStr) (target_ratio : PyRatio) : PyStr :=
  if content = [] ∨ content.length < 200 then content
  else
    let target_length := pyIntMul content.length target_ratio
    if content.length ≤ target_length then content
    else
      let truncated := content.take target_length
      let last_period := pyRfind truncated '.'
      let last_newline := pyRfind truncated '\n'
      let break_point := max last_period last_newline
      let truncated :=
        if break_point * 10 > (target_length : Int) * 7 then
          truncated.take (break_point + 1).toNat
        else truncated
      if truncated.length < content.length then truncated ++ ellipsis
      else truncated

/-- The fixed Chinese summarization prompt of `SummaryStrategy.compress`
(compression.py:59-63). -/
def summaryPrompt (target_ratio : PyRatio) (content : PyStr) : PyStr :=
  "请用简洁的语言总结以下内容，保留关键信息，长度约为原文的".toList
  ++ (toString (target_ratio.num * 100 / target_ratio.den)).toList
  ++ "%：\n\n".toList ++ content ++ "\n\n总结：".toList

/-- `SummaryStrategy.compress` (compression.py:54-75).  Content shorter than
400 characters is returned unchanged; otherwise the LLM is asked for a
summary (`llm` returns `Option.none` on failure, in which case — as for an
empty stripped reply — the original content is returned). -/
def summaryCompress (llm : PyStr → Option PyStr) (content : PyStr)
    (target_ratio : PyRatio) : PyStr :=
  if content = [] ∨ content.length < 400 then content
  else
    match llm (summaryPrompt target_ratio content) with
    | Option.none => content
    | some response_content =>
      let summary := pyStrip response_content
      if summary = [] then content else summary

/-- The chunking loop inside `SemanticStrategy._split_sections`
(compression.py:162-176): group the lines of an over-2000-char section into
chunks of roughly 1000 characters, rejoining with newlines. -/
def chunkLines (subsections : List PyStr) : List PyStr :=
  let step := fun (acc : List PyStr × PyStr) (sub : PyStr) =>
    if acc.2.length + sub.length > 1000 ∧ acc.2 ≠ [] then
      (acc.1 ++ [acc.2], sub)
    else
      (acc.1, if acc.2 = [] then sub else acc.2 ++ '\n' :: sub)
  let r := subsections.foldl step ([], [])
  if r.2 ≠ [] then r.1 ++ [r.2] else r.1

/-- `SemanticStrategy._split_sections` (compression.py:156-180): split on
blank lines, then re-split any section longer than 2000 characters into
roughly 1000-character chunks of whole lines. -/
def splitSections (content : PyStr) : List PyStr :=
  ((pySplit ('\n' :: ['\n']) content).map (fun sec =>
    if sec.length > 2000 then chunkLines (pySplit ['\n'] sec)
    else [sec])).flatten

/-- A fenced code block marker (three backticks). -/
def codeFence : PyStr := [Char.ofNat 96, Char.ofNat 96, Char.ofNat 96]

/-- The fixed key-term list of `SemanticStrategy._calculate_importance`. -/
def keyTerms : List PyStr :=
  ["error".toList, "exception".toList, "result".toList, "summary".toList,
   "conclusion".toList, "important".toList, "critical".toList]

/-- ASCII lowercasing, modelling `str.lower()` as used on the (ASCII) key
terms. -/
def pyLower (s : PyStr) : PyStr := s.map Char.toLower

/-- `SemanticStrategy._calculate_importance` (compression.py:182-205):
base 1.0, +2.0 for a fenced code block, +1.5 for a markdown heading, +0.5 per
key term found in the lowercased section, halved for sections under 100
characters.  Every score the source computes is a multiple of 0.25 and the
float arithmetic on them is exact, so scores are represented here in quarter
units (1.0 ≙ 4); ordering and the zero test are preserved exactly, and the
halving (all summands being even in quarter units) is exact as well. -/
def calculateImportance (sec : PyStr) : Nat :=
  let score := 4
  let score := if pyContains sec codeFence then score + 8 else score
  let stripped := pyStrip sec
  let score :=
    if ('#' :: [' ']).isPrefixOf stripped ∨ ('#' :: '#' :: [' ']).isPrefixOf stripped
      ∨ ('#' :: '#' :: '#' :: [' ']).isPrefixOf stripped then
      score + 6
    else score
  let lower := pyLower sec
  let score := score +
    2 * (keyTerms.filter (fun term => pyContains lower term)).length
  if sec.length < 100 then score / 2 else score

/-- Stable insertion for descending sort on the score component: a new
element goes after every earlier element whose score is greater or equal,
reproducing Python's stable `sort(key=..., reverse=True)`. -/
def insertScoreDesc (x : Nat × Nat) : List (Nat × Nat) → List (Nat × Nat)
  | [] => [x]
  | y :: ys => if x.2 ≤ y.2 then y :: insertScoreDesc x ys else x :: y :: ys

/-- Stable descending sort by score (`indexed_scores.sort(key=score,
reverse=True)`). -/
def sortScoresDesc (l : List (Nat × Nat)) : List (Nat × Nat) :=
  l.foldl (fun acc x => insertScoreDesc x acc) []

/-- First index of `s` in `sections` (Python `sections.index(s)`). -/
def firstIndex (sections : List PyStr) (s : PyStr) : Nat :=
  sections.findIdx (fun t => t == s)

/-- Stable insertion for ascending sort by `sections.index`
(`keep_sections.sort(key=lambda s: sections.index(s))`). -/
def insertByFirstIndex (sections : List PyStr) (x : PyStr) :
    List PyStr → List PyStr
  | [] => [x]
  | y :: ys =>
    if firstIndex sections y ≤ firstIndex sections x then
      y :: insertByFirstIndex sections x ys
    else x :: y :: ys

/-- Stable ascending sort of the kept sections by their first index in the
original section list. -/
def sortByFirstIndex (sections : List PyStr) (l : List PyStr) : List PyStr :=
  l.foldl (fun acc x => insertByFirstIndex sections x acc) []

/-- `SemanticStrategy.compress` (compression.py:123-154).  Content of at most
500 characters is returned unchanged; with at most one section, or an
all-zero importance total, it falls back to truncation; otherwise the
`max(1, int(n * ratio))` highest-scoring sections are kept in original
order and rejoined with blank lines. -/
def semanticCompress (content : PyStr) (target_ratio : PyRatio) : PyStr :=
  if content = [] ∨ content.length ≤ 500 then content
  else
    let sections := splitSections content
    if sections.length ≤ 1 then truncationCompress content target_ratio
    else
      let importance_scores := sections.map calculateImportance
      let total_importance := importance_scores.sum
      if total_importance = 0 then truncationCompress content target_ratio
      else
        let target_sections :=
          max 1 (pyIntMul sections.length target_ratio)
        let keep_indices :=
          ((sortScoresDesc importance_scores.enum).take target_sections).map
            Prod.fst
        let keep_sections :=
          (sections.enum.filter (fun p => keep_indices.contains p.1)).map
            Prod.snd
        let keep_sections := sortByFirstIndex sections keep_sections
        List.intercalate ('\n' :: ['\n']) keep_sections

/-! ## The context compressor (src/aisbot/agent/compression.py:212-453)

Messages are the `{role, content, ...}` dicts the compressor inspects:
`role` and `content` may be absent (`get` with defaults), `content` may be a
string or a multimodal part list, `_compressed` / `_original_length` are the
marker keys `_compress_history` adds, and `extra` stands for all remaining
keys, which every code path carries through unchanged (`{**msg, ...}`). -/

/-- One element of a multimodal content list; only `{"type": "text"}` items
have their `text` counted by `_estimate_tokens`. -/
structure ContentPart where
  typ : String
  text : PyStr
deriving DecidableEq

/-- A message's `content` value: a string or a part list. -/
inductive MsgContent where
  | text (s : PyStr)
  | parts (ps : List ContentPart)
deriving DecidableEq

/-- A `{role, content, ...}` message dict. -/
structure PyMessage where
  role : Option String
  content : Option MsgContent
  compressedFlag : Bool
  originalLength : Option Nat
  extra : List (String × String)
deriving DecidableEq

/-- `CompressionConfig` (compression.py:212-223), with the source's field
names and defaults. -/
structure CompressionConfig where
  enabled : Bool := true
  max_context_tokens : Nat := 16000
  target_context_tokens : Nat := 12000
  recent_messages_keep : Nat := 10
  history_compression_threshold : Nat := 20
  strategy : String := "semantic"
  min_content_length : Nat := 200
  preserve_system_prompt_cache : Bool := true
deriving DecidableEq

/-- `ContextCompressor._estimate_tokens` (compression.py:430-445):
`len(content) // 4` per string content, summed, counting only the `"text"`
parts of multimodal lists; an absent content counts as the empty string. -/
def estimateTokens (messages : List PyMessage) : Nat :=
  messages.foldl (fun total msg =>
    match msg.content with
    | some (MsgContent.text s) => total + s.length / 4
    | some (MsgContent.parts ps) =>
      total + (ps.foldl (fun t item =>
        if item.typ = "text" then t + item.text.length / 4 else t) 0)
    | Option.none => total) 0

/-- The `self._strategies.get(self.config.strategy, self._strategies
["semantic"])` lookup (compression.py:292-296, 407): the summary strategy
closes over the LLM provider `llm`; an unknown name falls back to the
semantic strategy. -/
def chooseStrategy (llm : PyStr → Option PyStr) (name : String) :
    PyStr → PyRatio → PyStr :=
  if name = "summary" then summaryCompress llm
  else if name = "truncation" then truncationCompress
  else semanticCompress

/-- The per-message transform of `ContextCompressor._compress_history`
(compression.py:410-426): a string content longer than `min_content_length`
is compressed at ratio 0.3 and the message marked `_compressed` with its
`_original_length`; every other message is kept verbatim. -/
def compressOlderMessage (strat : PyStr → PyRatio → PyStr)
    (min_content_length : Nat) (msg : PyMessage) : PyMessage :=
  match msg.content with
  | some (MsgContent.text content) =>
    if content.length > min_content_length then
      { msg with
        content := some (MsgContent.text (strat content ⟨3, 10⟩))
        compressedFlag := true
        originalLength := some content.length }
    else msg
  | _ => msg

/-- `ContextCompressor._compress_history` (compression.py:394-428).  Note the
Python slices: with `recent_messages_keep = 0`, `messages[-0:]` is the whole
list and `messages[:-0]` is empty, so nothing is ever rewritten then. -/
def compressHistory (cfg : CompressionConfig) (strat : PyStr → PyRatio → PyStr)
    (messages : List PyMessage) : List PyMessage :=
  if messages.length ≤ cfg.recent_messages_keep then messages
  else
    let recent :=
      if cfg.recent_messages_keep = 0 then messages
      else messages.drop (messages.length - cfg.recent_messages_keep)
    let older :=
      if cfg.recent_messages_keep = 0 then []
      else messages.take (messages.length - cfg.recent_messages_keep)
    if older = [] then messages
    else
      older.map (compressOlderMessage strat cfg.min_content_length) ++ recent

/-- `ContextCompressor._apply_compression` (compression.py:376-392): split
off the system-role messages, compress the rest, reassemble. -/
def applyCompression (cfg : CompressionConfig) (strat : PyStr → PyRatio → PyStr)
    (messages : List PyMessage) : List PyMessage :=
  if messages = [] then messages
  else
    let system_messages := messages.filter (fun m => m.role == some "system")
    let other_messages := messages.filter (fun m => !(m.role == some "system"))
    if other_messages = [] then messages
    else system_messages ++ compressHistory cfg strat other_messages

/-- The statistics dict `compress_messages` returns.  The derived float keys
`reduction` / `reduction_percent` of the compressed branch are determined by
`original_tokens` and `final_tokens` and are not modelled separately. -/
structure CompressionStats where
  compressed : Bool
  reason : Option String
  original_tokens : Option Nat
  final_tokens : Option Nat
deriving DecidableEq

/-- `ContextCompressor.compress_messages` (compression.py:298-342), with the
configured strategy abstracted as `strat`. -/
def compress_messages (cfg : CompressionConfig)
    (strat : PyStr → PyRatio → PyStr) (messages : List PyMessage) :
    List PyMessage × CompressionStats :=
  if !cfg.enabled then
    (messages, ⟨false, some "disabled", Option.none, Option.none⟩)
  else
    let total_tokens := estimateTokens messages
    if total_tokens ≤ cfg.target_context_tokens then
      (messages, ⟨false, some "under_limit", some total_tokens, Option.none⟩)
    else
      let compressed := applyCompression cfg strat messages
      let final_tokens := estimateTokens compressed
      (compressed, ⟨true, Option.none, some total_tokens, some final_tokens⟩)

/-- `ContextBuilder.compress_tool_result` (src/aisbot/agent/context.py:303-327):
results shorter than 1000 characters are returned unchanged; otherwise the
configured strategy is applied at ratio 0.4 when available.  The `compressor`
and `provider` flags model the `if not self.compressor or not provider`
guard. -/
def compress_tool_result (compressor provider : Bool)
    (strat : Option (PyStr → PyRatio → PyStr)) (result : PyStr) : PyStr :=
  if !compressor ∨ !provider then result
  else if result.length < 1000 then result
  else
    match strat with
    | some f => f result ⟨2, 5⟩
    | Option.none => result

/-! ## Claims C2-C5: compression thresholds, idempotence, under-limit and
frame preservation -/

/-- C2, counterexample: content exactly at the 200 / 400 / 1000 boundaries is
compressed, not returned unchanged.  A 200-character string is truncated; a
400-character string is sent to the summarization LLM (here one returning
"SUMMARY"); a 1000-character tool result is passed to the strategy at ratio
0.4.  This refutes the claim that exactly-at-threshold content falls on the
non-compress side at 200, 400 and 1000. -/
theorem c2_counterexample :
    truncationCompress (List.replicate 200 'a') ⟨1, 2⟩
      = List.replicate 100 'a' ++ ellipsis
  ∧ truncationCompress (List.replicate 200 'a') ⟨1, 2⟩ ≠ List.replicate 200 'a'
  ∧ summaryCompress (fun _ => some "SUMMARY".toList) (List.replicate 400 'a')
      ⟨1, 2⟩ = "SUMMARY".toList
  ∧ summaryCompress (fun _ => some "SUMMARY".toList) (List.replicate 400 'a')
      ⟨1, 2⟩ ≠ List.replicate 400 'a'
  ∧ compress_tool_result true true (some truncationCompress)
      (List.replicate 1000 'a') = List.replicate 400 'a' ++ ellipsis
  ∧ compress_tool_result true true (some truncationCompress)
      (List.replicate 1000 'a') ≠ List.replicate 1000 'a' := by
  refine ⟨?_, ?_, ?_, ?_, ?_, ?_⟩ <;> decide

/-- C2, amended: the unchanged-return guards are strict at 200, 400 and 1000
— content of exactly 200 characters is compressed by the truncation strategy,
exactly 400 characters is passed to the summarization LLM, and a tool result
of exactly 1000 characters enters tool-result compression — while the
semantic strategy's guard is non-strict, so exactly 500 characters is
returned unchanged.  The non-compress sides are 199 / 399 / 500 / 999. -/
theorem c2_amended :
    (∀ (c : PyStr) (r : PyRatio), c.length < 200 → truncationCompress c r = c)
  ∧ truncationCompress (List.replicate 200 'a') ⟨1, 2⟩ ≠ List.replicate 200 'a'
  ∧ (∀ (llm : PyStr → Option PyStr) (c : PyStr) (r : PyRatio),
      c.length < 400 → summaryCompress llm c r = c)
  ∧ (∀ (llm : PyStr → Option PyStr) (c : PyStr) (r : PyRatio),
      c.length = 400 →
      summaryCompress llm c r =
        match llm (summaryPrompt r c) with
        | Option.none => c
        | some response_content =>
          if pyStrip response_content = [] then c else pyStrip response_content)
  ∧ (∀ (c : PyStr) (r : PyRatio), c.length ≤ 500 → semanticCompress c r = c)
  ∧ (∀ (strat : Option (PyStr → PyRatio → PyStr)) (res : PyStr),
      res.length < 1000 → compress_tool_result true true strat res = res)
  ∧ (∀ (f : PyStr → PyRatio → PyStr) (res : PyStr),
      res.length = 1000 →
      compress_tool_result true true (some f) res = f res ⟨2, 5⟩) := by
  refine ⟨?_, ?_, ?_, ?_, ?_, ?_, ?_⟩
  · intro c r h
    simp [truncationCompress, h]
  · decide
  · intro llm c r h
    simp [summaryCompress, h]
  · intro llm c r h
    have hne : c ≠ [] := by
      intro he
      rw [he] at h
      simp at h
    simp only [summaryCompress, h]
    simp [hne]
  · intro c r h
    simp [semanticCompress, h]
  · intro strat res h
    simp [compress_tool_result, h]
  · intro f res h
    simp [compress_tool_result, h]

/-- C2, witness: concrete inputs for each guarded part of `c2_amended`: a
199-char string is unchanged by truncation, a 399-char string by summary, a
500-char string by the semantic strategy, a 999-char tool result bypasses
tool-result compression, a 400-char content reaches the LLM, and a 1000-char
tool result reaches the strategy. -/
theorem c2_witness :
    truncationCompress (List.replicate 199 'a') ⟨3, 10⟩ = List.replicate 199 'a'
  ∧ summaryCompress (fun _ => some "SUMMARY".toList) (List.replicate 399 'a')
      ⟨3, 10⟩ = List.replicate 399 'a'
  ∧ summaryCompress (fun _ => some "SUMMARY".toList) (List.replicate 400 'a')
      ⟨3, 10⟩ = "SUMMARY".toList
  ∧ semanticCompress (List.replicate 500 'a') ⟨3, 10⟩ = List.replicate 500 'a'
  ∧ compress_tool_result true true (some truncationCompress)
      (List.replicate 999 'a') = List.replicate 999 'a'
  ∧ compress_tool_result true true (some truncationCompress)
      (List.replicate 1000 'a')
      = truncationCompress (List.replicate 1000 'a') ⟨2, 5⟩ := by
  refine ⟨?_, ?_, ?_, ?_, ?_, ?_⟩
  · exact c2_amended.1 (List.replicate 199 'a') ⟨3, 10⟩ (by decide)
  · exact c2_amended.2.2.1 (fun _ => some "SUMMARY".toList)
      (List.replicate 399 'a') ⟨3, 10⟩ (by decide)
  · rw [c2_amended.2.2.2.1 (fun _ => some "SUMMARY".toList)
      (List.replicate 400 'a') ⟨3, 10⟩ (by decide)]
    decide
  · exact c2_amended.2.2.2.2.1 (List.replicate 500 'a') ⟨3, 10⟩ (by decide)
  · exact c2_amended.2.2.2.2.2.1 (some truncationCompress)
      (List.replicate 999 'a') (by decide)
  · exact c2_amended.2.2.2.2.2.2 truncationCompress (List.replicate 1000 'a')
      (by decide)

/-- C3, counterexample: the truncation strategy is not idempotent, even up to
the trailing ellipsis, at the history-compression ratio 0.3: one application
to 700 characters yields 210 characters plus `"..."`, a second application
shrinks that to 63 characters plus `"..."` — the difference goes far beyond
the trailing ellipsis.  This refutes the claimed idempotence law. -/
theorem c3_counterexample :
    truncationCompress (List.replicate 700 'a') ⟨3, 10⟩
      = List.replicate 210 'a' ++ ellipsis
  ∧ truncationCompress (truncationCompress (List.replicate 700 'a') ⟨3, 10⟩)
      ⟨3, 10⟩ = List.replicate 63 'a' ++ ellipsis
  ∧ List.replicate 63 'a' ≠ List.replicate 210 'a' := by
  refine ⟨?_, ?_, ?_⟩ <;> decide

/-- C3, amended: the truncation and semantic strategies are idempotent only
once the compressed output falls below the strategy's activation threshold
(under 200 characters for truncation, at most 500 for semantic): a second
application is then the identity.  Otherwise a second application compresses
further (see the counterexample). -/
theorem c3_amended : ∀ (x : PyStr) (r : PyRatio),
    ((truncationCompress x r).length < 200 →
      truncationCompress (truncationCompress x r) r = truncationCompress x r)
  ∧ ((semanticCompress x r).length ≤ 500 →
      semanticCompress (semanticCompress x r) r = semanticCompress x r) := by
  intro x r
  constructor
  · intro h
    generalize hy : truncationCompress x r = y at h ⊢
    have h2 : y = [] ∨ y.length < 200 := Or.inr h
    simp only [truncationCompress, if_pos h2]
  · intro h
    generalize hy : semanticCompress x r = y at h ⊢
    have h2 : y = [] ∨ y.length ≤ 500 := Or.inr h
    simp only [semanticCompress, if_pos h2]

/-- C3, witness: a short string is below both thresholds after one
application, so the second application is the identity. -/
theorem c3_witness :
    truncationCompress (truncationCompress ['a'] ⟨3, 10⟩) ⟨3, 10⟩
      = truncationCompress ['a'] ⟨3, 10⟩
  ∧ semanticCompress (semanticCompress ['a'] ⟨3, 10⟩) ⟨3, 10⟩
      = semanticCompress ['a'] ⟨3, 10⟩ :=
  ⟨(c3_amended ['a'] ⟨3, 10⟩).1 (by decide),
   (c3_amended ['a'] ⟨3, 10⟩).2 (by decide)⟩

/-- C4: with compression enabled, whenever the estimated token total is at
most `target_context_tokens`, `compress_messages` returns the message list
unchanged, with `compressed = false` and reason `"under_limit"` (and the
original token count) in the statistics. -/
theorem c4_under_limit (cfg : CompressionConfig)
    (strat : PyStr → PyRatio → PyStr) (messages : List PyMessage)
    (hEnabled : cfg.enabled = true)
    (hUnder : estimateTokens messages ≤ cfg.target_context_tokens) :
    compress_messages cfg strat messages =
      (messages,
       ⟨false, some "under_limit", some (estimateTokens messages),
        Option.none⟩) := by
  simp [compress_messages, hEnabled, hUnder]

/-- C4, witness: a one-message list estimating 0 tokens under the default
config is returned unchanged with reason `"under_limit"`. -/
theorem c4_witness :
    compress_messages {} truncationCompress
      [⟨some "user", some (MsgContent.text "hi".toList), false, Option.none, []⟩]
    = ([⟨some "user", some (MsgContent.text "hi".toList), false, Option.none, []⟩],
       ⟨false, some "under_limit",
        some (estimateTokens
          [⟨some "user", some (MsgContent.text "hi".toList), false,
            Option.none, []⟩]),
        Option.none⟩) :=
  c4_under_limit {} truncationCompress
    [⟨some "user", some (MsgContent.text "hi".toList), false, Option.none, []⟩]
    (by decide) (by decide)

/-- C5: whenever history is rewritten (a positive `recent_messages_keep`
smaller than the number of non-system messages), the output is exactly the
system-role messages, then the older non-system messages each processed by
the per-message transform, then the trailing `recent_messages_keep`
non-system messages byte-identical; that preserved tail has exactly
`recent_messages_keep` entries. -/
theorem c5_recent_preserved (cfg : CompressionConfig)
    (strat : PyStr → PyRatio → PyStr) (messages others : List PyMessage)
    (hO : others = messages.filter (fun m => !(m.role == some "system")))
    (hK : 0 < cfg.recent_messages_keep)
    (hL : cfg.recent_messages_keep < others.length) :
    applyCompression cfg strat messages =
      messages.filter (fun m => m.role == some "system")
      ++ (others.take (others.length - cfg.recent_messages_keep)).map
           (compressOlderMessage strat cfg.min_content_length)
      ++ others.drop (others.length - cfg.recent_messages_keep)
  ∧ (others.drop (others.length - cfg.recent_messages_keep)).length
      = cfg.recent_messages_keep := by
  have hON : others ≠ [] := by
    intro he
    rw [he] at hL
    simp at hL
  have hMN : messages ≠ [] := by
    intro he
    rw [he] at hO
    simp at hO
    exact hON hO
  have hOlderN : others.take (others.length - cfg.recent_messages_keep) ≠ [] := by
    intro he
    have := congrArg List.length he
    simp at this
    omega
  constructor
  · have hKne : ¬ cfg.recent_messages_keep = 0 := by omega
    have hLe : ¬ others.length ≤ cfg.recent_messages_keep := by omega
    rw [applyCompression, if_neg hMN, ← hO, if_neg hON, compressHistory,
      if_neg hLe]
    simp only [if_neg hKne]
    rw [if_neg hOlderN]
    simp [List.append_assoc]
  · simp
    omega

/-- C5, witness: one system message and three non-system messages with
`recent_messages_keep = 2`: the two trailing user messages are preserved
verbatim after the system message and the processed older message. -/
theorem c5_witness :
    applyCompression
      { recent_messages_keep := 2 : CompressionConfig } truncationCompress
      [⟨some "system", some (MsgContent.text "s".toList), false, Option.none, []⟩,
       ⟨some "user", some (MsgContent.text "u1".toList), false, Option.none, []⟩,
       ⟨some "assistant", some (MsgContent.text "a1".toList), false, Option.none, []⟩,
       ⟨some "user", some (MsgContent.text "u2".toList), false, Option.none, []⟩]
    = [⟨some "system", some (MsgContent.text "s".toList), false, Option.none, []⟩]
      ++ [compressOlderMessage truncationCompress 200
           ⟨some "user", some (MsgContent.text "u1".toList), false, Option.none, []⟩]
      ++ [⟨some "assistant", some (MsgContent.text "a1".toList), false, Option.none, []⟩,
          ⟨some "user", some (MsgContent.text "u2".toList), false, Option.none, []⟩] := by
  have h := c5_recent_preserved
    { recent_messages_keep := 2 : CompressionConfig } truncationCompress
    [⟨some "system", some (MsgContent.text "s".toList), false, Option.none, []⟩,
     ⟨some "user", some (MsgContent.text "u1".toList), false, Option.none, []⟩,
     ⟨some "assistant", some (MsgContent.text "a1".toList), false, Option.none, []⟩,
     ⟨some "user", some (MsgContent.text "u2".toList), false, Option.none, []⟩]
    ([⟨some "user", some (MsgContent.text "u1".toList), false, Option.none, []⟩,
      ⟨some "assistant", some (MsgContent.text "a1".toList), false, Option.none, []⟩,
      ⟨some "user", some (MsgContent.text "u2".toList), false, Option.none, []⟩])
    (by decide) (by decide) (by decide)
  exact h.1

/-! ## The MCP verification-and-call dispatcher
(src/aisbot/agent/loop.py:164-236, `AgentLoop._execute_mcp_tool`)

The proxy state is passed explicitly: `servers` is `mcp_proxy.servers`
(name → opaque config), `cache` is `mcp_proxy._tool_info_cache`, `fetched` is
what `mcp_proxy._fetch_tools` would return for the missing server, and
`callStdio` / `callHttp` are the remote transports (`Except.error` models an
exception).  The result is the returned string, whether the remote tool was
invoked, and the cache afterwards. -/

/-- One cached `{name, description, parameters, usage}` record, restricted to
the keys `_execute_mcp_tool` reads (`t.get("name")`,
`t.get("parameters", {})`). -/
structure MCPToolInfo where
  name : Option String
  parameters : Option MCPParamsSchema
deriving DecidableEq

/-- The `_server_name` / `_mcp_tool_name` / `_transport` attributes read off
the tool wrapper with `getattr(tool, ..., None)`. -/
structure MCPToolMeta where
  serverName : Option String
  mcpToolName : Option String
  transport : Option String
deriving DecidableEq

/-- Python truthiness of an optional string (`not server_name` is true for
both `None` and `""`). -/
def optTruthy : Option String → Bool
  | Option.none => false
  | some s => !(s == "")

/-- Dictionary lookup, keys in insertion order. -/
def alistGet {β : Type} (k : String) (l : List (String × β)) : Option β :=
  (l.find? (fun p => p.1 == k)).map Prod.snd

/-- `AgentLoop._execute_mcp_tool` (loop.py:164-236): verify the tool
metadata, the proxy, the server, the remote tool (fetching the server's tool
list when the cache has no entry for it) and the arguments, then dispatch by
transport; every exception from the remote call becomes an error string. -/
def executeMCPTool (meta : MCPToolMeta) (tool_call_name : String)
    (proxyOk : Bool) (servers : List (String × String))
    (cache : List (String × List MCPToolInfo)) (fetched : List MCPToolInfo)
    (callStdio callHttp : String → String → List (String × PyVal) → Except String String)
    (args : List (String × PyVal)) :
    String × Bool × List (String × List MCPToolInfo) :=
  if !(optTruthy meta.serverName) ∨ !(optTruthy meta.mcpToolName)
      ∨ !(optTruthy meta.transport) then
    ("Error: Invalid MCP tool metadata for " ++ sq ++ tool_call_name ++ sq,
     false, cache)
  else
    let server_name := meta.serverName.getD ""
    let mcp_tool_name := meta.mcpToolName.getD ""
    let transport := meta.transport.getD ""
    if !proxyOk then ("Error: MCP proxy tool not available", false, cache)
    else if (alistGet server_name servers).isNone then
      ("Error: MCP server " ++ sq ++ server_name ++ sq
        ++ " not found. Available servers: "
        ++ String.intercalate ", " (servers.map Prod.fst), false, cache)
    else
      let cache2 :=
        if (alistGet server_name cache).isNone then
          cache ++ [(server_name, fetched)]
        else cache
      let server_tools := (alistGet server_name cache2).getD []
      match server_tools.find? (fun t => t.name == some mcp_tool_name) with
      | Option.none =>
        ("Error: Tool " ++ sq ++ mcp_tool_name ++ sq ++ " not found on server "
          ++ sq ++ server_name ++ sq ++ ". Available tools: "
          ++ String.intercalate ", " (server_tools.map (fun t => t.name.getD "?")),
         false, cache2)
      | some tool_info =>
        let validation_errors := _validate_mcp_params args tool_info.parameters
        if validation_errors ≠ [] then
          ("Error: Parameter validation failed for " ++ sq ++ mcp_tool_name
            ++ sq ++ ": " ++ String.intercalate "; " validation_errors,
           false, cache2)
        else
          let cfg := (alistGet server_name servers).getD ""
          if transport = "stdio" then
            match callStdio cfg mcp_tool_name args with
            | Except.ok r => (r, true, cache2)
            | Except.error e =>
              ("Error executing MCP tool " ++ sq ++ mcp_tool_name ++ sq
                ++ ": " ++ e, true, cache2)
          else if transport = "http" then
            match callHttp cfg mcp_tool_name args with
            | Except.ok r => (r, true, cache2)
            | Except.error e =>
              ("Error executing MCP tool " ++ sq ++ mcp_tool_name ++ sq
                ++ ": " ++ e, true, cache2)
          else
            ("Error: Unsupported transport " ++ sq ++ transport ++ sq,
             false, cache2)

/-- C7: before any remote call, `_execute_mcp_tool` verifies the server, the
remote tool (fetching the server's tool list when the cache has no entry for
that server) and the arguments; each negative outcome returns a diagnostic
string — listing the available servers resp. the available tools, or the
validation errors — without invoking the remote tool; and whenever the
remote tool is invoked, the server existed, the remote tool was found in the
(possibly refreshed) cache, and the arguments validated with no errors. -/
theorem c7_mcp_verification_before_call (meta : MCPToolMeta)
    (tool_call_name : String) (proxyOk : Bool)
    (servers : List (String × String))
    (cache : List (String × List MCPToolInfo)) (fetched : List MCPToolInfo)
    (callStdio callHttp : String → String → List (String × PyVal) → Except String String)
    (args : List (String × PyVal)) :
    (¬ (optTruthy meta.serverName = true ∧ optTruthy meta.mcpToolName = true
        ∧ optTruthy meta.transport = true) →
      executeMCPTool meta tool_call_name proxyOk servers cache fetched
          callStdio callHttp args
        = ("Error: Invalid MCP tool metadata for " ++ sq ++ tool_call_name
            ++ sq, false, cache))
  ∧ (optTruthy meta.serverName = true → optTruthy meta.mcpToolName = true →
      optTruthy meta.transport = true → proxyOk = false →
      executeMCPTool meta tool_call_name proxyOk servers cache fetched
          callStdio callHttp args
        = ("Error: MCP proxy tool not available", false, cache))
  ∧ (optTruthy meta.serverName = true → optTruthy meta.mcpToolName = true →
      optTruthy meta.transport = true → proxyOk = true →
      alistGet (meta.serverName.getD "") servers = Option.none →
      executeMCPTool meta tool_call_name proxyOk servers cache fetched
          callStdio callHttp args
        = ("Error: MCP server " ++ sq ++ meta.serverName.getD "" ++ sq
            ++ " not found. Available servers: "
            ++ String.intercalate ", " (servers.map Prod.fst), false, cache))
  ∧ (optTruthy meta.serverName = true → optTruthy meta.mcpToolName = true →
      optTruthy meta.transport = true → proxyOk = true →
      (alistGet (meta.serverName.getD "") servers).isSome = true →
      alistGet (meta.serverName.getD "") cache = Option.none →
      (executeMCPTool meta tool_call_name proxyOk servers cache fetched
          callStdio callHttp args).2.2
        = cache ++ [(meta.serverName.getD "", fetched)])
  ∧ (optTruthy meta.serverName = true → optTruthy meta.mcpToolName = true →
      optTruthy meta.transport = true → proxyOk = true →
      (alistGet (meta.serverName.getD "") servers).isSome = true →
      ((alistGet (meta.serverName.getD "")
          (if (alistGet (meta.serverName.getD "") cache).isNone then
            cache ++ [(meta.serverName.getD "", fetched)]
          else cache)).getD []).find?
        (fun t => t.name == some (meta.mcpToolName.getD "")) = Option.none →
      executeMCPTool meta tool_call_name proxyOk servers cache fetched
          callStdio callHttp args
        = ("Error: Tool " ++ sq ++ meta.mcpToolName.getD "" ++ sq
            ++ " not found on server " ++ sq ++ meta.serverName.getD "" ++ sq
            ++ ". Available tools: "
            ++ String.intercalate ", "
              (((alistGet (meta.serverName.getD "")
                  (if (alistGet (meta.serverName.getD "") cache).isNone then
                    cache ++ [(meta.serverName.getD "", fetched)]
                  else cache)).getD []).map (fun t => t.name.getD "?")),
           false,
           if (alistGet (meta.serverName.getD "") cache).isNone then
             cache ++ [(meta.serverName.getD "", fetched)]
           else cache))
  ∧ (∀ tool_info,
      optTruthy meta.serverName = true → optTruthy meta.mcpToolName = true →
      optTruthy meta.transport = true → proxyOk = true →
      (alistGet (meta.serverName.getD "") servers).isSome = true →
      ((alistGet (meta.serverName.getD "")
          (if (alistGet (meta.serverName.getD "") cache).isNone then
            cache ++ [(meta.serverName.getD "", fetched)]
          else cache)).getD []).find?
        (fun t => t.name == some (meta.mcpToolName.getD "")) = some tool_info →
      _validate_mcp_params args tool_info.parameters ≠ [] →
      executeMCPTool meta tool_call_name proxyOk servers cache fetched
          callStdio callHttp args
        = ("Error: Parameter validation failed for "
            ++ sq ++ meta.mcpToolName.getD "" ++ sq ++ ": "
            ++ String.intercalate "; "
              (_validate_mcp_params args tool_info.parameters),
           false,
           if (alistGet (meta.serverName.getD "") cache).isNone then
             cache ++ [(meta.serverName.getD "", fetched)]
           else cache))
  ∧ ((executeMCPTool meta tool_call_name proxyOk servers cache fetched
        callStdio callHttp args).2.1 = true →
      (alistGet (meta.serverName.getD "") servers).isSome = true
      ∧ ∃ tool_info,
        ((alistGet (meta.serverName.getD "")
            (if (alistGet (meta.serverName.getD "") cache).isNone then
              cache ++ [(meta.serverName.getD "", fetched)]
            else cache)).getD []).find?
          (fun t => t.name == some (meta.mcpToolName.getD "")) = some tool_info
        ∧ _validate_mcp_params args tool_info.parameters = []) := by
  refine ⟨?_, ?_, ?_, ?_, ?_, ?_, ?_⟩
  · intro h
    rw [not_and_or, not_and_or] at h
    simp only [Bool.not_eq_true] at h
    rcases h with h | h | h <;> simp [executeMCPTool, h]
  · intro h1 h2 h3 hp
    simp [executeMCPTool, h1, h2, h3, hp]
  · intro h1 h2 h3 hp hs
    simp [executeMCPTool, h1, h2, h3, hp, hs]
  · intro h1 h2 h3 hp hs hc
    have hsn : alistGet (meta.serverName.getD "") servers ≠ Option.none := by
      intro he
      rw [he] at hs
      simp at hs
    simp only [executeMCPTool, h1, h2, h3, hp]
    simp only [Bool.not_true, Bool.false_eq_true, false_or, if_false]
    rw [if_neg (by simp [hsn])]
    simp only [hc, Option.isNone_none, if_true]
    split
    · rfl
    · split
      · rfl
      · split
        · split <;> rfl
        · split
          · split <;> rfl
          · rfl
  · intro h1 h2 h3 hp hs hf
    have hsn : alistGet (meta.serverName.getD "") servers ≠ Option.none := by
      intro he
      rw [he] at hs
      simp at hs
    simp only [executeMCPTool, h1, h2, h3, hp]
    simp only [Bool.not_true, Bool.false_eq_true, false_or, if_false]
    rw [if_neg (by simp [hsn])]
    rw [hf]
  · intro tool_info h1 h2 h3 hp hs hf hv
    have hsn : alistGet (meta.serverName.getD "") servers ≠ Option.none := by
      intro he
      rw [he] at hs
      simp at hs
    simp only [executeMCPTool, h1, h2, h3, hp]
    simp only [Bool.not_true, Bool.false_eq_true, false_or, if_false]
    rw [if_neg (by simp [hsn])]
    rw [hf]
    simp [hv]
  · intro hinv
    simp only [executeMCPTool] at hinv
    split at hinv
    · simp at hinv
    · split at hinv
      · simp at hinv
      · split at hinv
        · simp at hinv
        · rename_i hns
          have hs2 : (alistGet (meta.serverName.getD "") servers).isSome = true := by
            rcases halist : alistGet (meta.serverName.getD "") servers with _ | v
            · rw [halist] at hns
              simp at hns
            · rfl
          refine ⟨hs2, ?_⟩
          split at hinv
          · simp at hinv
          · rename_i ti hti
            refine ⟨ti, hti, ?_⟩
            split at hinv
            · simp at hinv
            · rename_i hvne
              simpa using hvne

/-- C7, witness: with one configured server `math` offering a remote tool
`add` with two required number parameters — (i) a call naming an unknown
server returns the diagnostic listing the available servers; (ii) a call on
`math` with an empty cache records the fetched tool list in the cache;
(iii) a call with a string argument for `a` returns the validation
diagnostic; in (i) and (iii) the remote tool is not invoked. -/
theorem c7_witness :
    executeMCPTool ⟨some "nosuch", some "add", some "stdio"⟩ "nosuch_add" true
      [("math", "cfgmath")] [] [] (fun _ _ _ => Except.ok "3")
      (fun _ _ _ => Except.ok "3") []
    = ("Error: MCP server " ++ sq ++ "nosuch" ++ sq
        ++ " not found. Available servers: "
        ++ String.intercalate ", " ([("math", "cfgmath")].map Prod.fst),
       false, [])
  ∧ (executeMCPTool ⟨some "math", some "add", some "stdio"⟩ "math_add" true
      [("math", "cfgmath")] []
      [⟨some "add", some ⟨some "object",
        [("a", some "number"), ("b", some "number")], ["a", "b"]⟩⟩]
      (fun _ _ _ => Except.ok "3") (fun _ _ _ => Except.ok "3")
      [("a", PyVal.int 1), ("b", PyVal.int 2)]).2.2
    = [] ++ [("math",
        [⟨some "add", some ⟨some "object",
          [("a", some "number"), ("b", some "number")], ["a", "b"]⟩⟩])]
  ∧ executeMCPTool ⟨some "math", some "add", some "stdio"⟩ "math_add" true
      [("math", "cfgmath")] []
      [⟨some "add", some ⟨some "object",
        [("a", some "number"), ("b", some "number")], ["a", "b"]⟩⟩]
      (fun _ _ _ => Except.ok "3") (fun _ _ _ => Except.ok "3")
      [("a", PyVal.str "x")]
    = ("Error: Parameter validation failed for " ++ sq ++ "add" ++ sq ++ ": "
        ++ String.intercalate "; "
          (_validate_mcp_params [("a", PyVal.str "x")]
            (some ⟨some "object",
              [("a", some "number"), ("b", some "number")], ["a", "b"]⟩)),
       false,
       [("math",
        [⟨some "add", some ⟨some "object",
          [("a", some "number"), ("b", some "number")], ["a", "b"]⟩⟩])]) := by
  refine ⟨?_, ?_, ?_⟩
  · exact (c7_mcp_verification_before_call
      ⟨some "nosuch", some "add", some "stdio"⟩ "nosuch_add" true
      [("math", "cfgmath")] [] [] (fun _ _ _ => Except.ok "3")
      (fun _ _ _ => Except.ok "3") []).2.2.1 (by decide) (by decide) (by decide)
      rfl (by decide)
  · have h := (c7_mcp_verification_before_call
      ⟨some "math", some "add", some "stdio"⟩ "math_add" true
      [("math", "cfgmath")] []
      [⟨some "add", some ⟨some "object",
        [("a", some "number"), ("b", some "number")], ["a", "b"]⟩⟩]
      (fun _ _ _ => Except.ok "3") (fun _ _ _ => Except.ok "3")
      [("a", PyVal.int 1), ("b", PyVal.int 2)]).2.2.2.1 (by decide) (by decide)
      (by decide) rfl (by decide) (by decide)
    simpa using h
  · have h := (c7_mcp_verification_before_call
      ⟨some "math", some "add", some "stdio"⟩ "math_add" true
      [("math", "cfgmath")] []
      [⟨some "add", some ⟨some "object",
        [("a", some "number"), ("b", some "number")], ["a", "b"]⟩⟩]
      (fun _ _ _ => Except.ok "3") (fun _ _ _ => Except.ok "3")
      [("a", PyVal.str "x")]).2.2.2.2.2.1
      ⟨some "add", some ⟨some "object",
        [("a", some "number"), ("b", some "number")], ["a", "b"]⟩⟩
      (by decide) (by decide) (by decide) rfl (by decide) (by decide) (by decide)
    simpa using h

/-! ## Message envelopes and the agent loop (src/aisbot/agent/loop.py)

`aisbot.bus.events` itself is not under src/ (only its importers are), so the
two envelope dataclasses are modelled from the spec. -/

/-- A naive `datetime.datetime` value (the envelopes' `timestamp`). -/
structure PyDateTime where
  year : Nat
  month : Nat
  day : Nat
  hour : Nat
  minute : Nat
  second : Nat
  microsecond : Nat
deriving DecidableEq

/-- Modelled from the spec: `aisbot.bus.events.InboundMessage` (the module is
missing from src/).  Spec §3: `channel` (reserved value `"system"`),
`sender_id`, `chat_id`, `content`, optional `media` (ordered list of local
file paths), `timestamp`. -/
structure InboundMessage where
  channel : String
  sender_id : String
  chat_id : String
  content : String
  media : Option (List String)
  timestamp : PyDateTime
deriving DecidableEq

/-- Modelled from the spec: `aisbot.bus.events.OutboundMessage` (the module
is missing from src/).  Spec §3: `channel`, `chat_id`, `content`, optional
`reply_to`, `timestamp`. -/
structure OutboundMessage where
  channel : String
  chat_id : String
  content : String
  reply_to : Option String
  timestamp : PyDateTime
deriving DecidableEq

/-- A tool-call request as returned by the provider (`ToolCallRequest`):
`id`, `name`, `arguments` map. -/
structure ToolCallReq where
  id : String
  name : String
  arguments : List (String × PyVal)

/-- An LLM response as far as the loop inspects it: `content` (may be `None`)
and the ordered `tool_calls`; `has_tool_calls ⇔ tool_calls ≠ []`. -/
structure LLMResponse where
  content : Option String
  tool_calls : List ToolCallReq

/-- The assistant-side tool-call record (loop.py:446-456).  The real dict
stores `arguments` as `json.dumps` of the map; the loop theorems do not
depend on that encoding, so the map itself is carried. -/
structure ToolCallRecord where
  id : String
  name : String
  arguments : List (String × PyVal)

/-- One `{role, content, ...}` entry of the prompt message list, with the
fields `add_assistant_message` / `add_tool_result` write. -/
structure ChatMsg where
  role : String
  content : String
  tool_calls : List ToolCallRecord
  tool_call_id : Option String
  name : Option String

/-- `ContextBuilder.add_assistant_message` (context.py:356-379):
`content or ""`, `tool_calls` attached when non-empty (an empty list and an
absent key are identified here). -/
def add_assistant_message (messages : List ChatMsg) (content : Option String)
    (tool_calls : List ToolCallRecord) : List ChatMsg :=
  messages ++ [⟨"assistant", content.getD "", tool_calls, Option.none, Option.none⟩]

/-- `ContextBuilder.add_tool_result` (context.py:329-354). -/
def add_tool_result (messages : List ChatMsg) (tool_call_id tool_name result :
    String) : List ChatMsg :=
  messages ++ [⟨"tool", result, [], some tool_call_id, some tool_name⟩]

/-- The `while iteration < self.max_iterations` loop shared by
`_process_message` (loop.py:430-479) and `_process_system_message`
(loop.py:546-590): call the LLM; with tool calls, append the assistant
message carrying the records, execute each call in order appending its
result, and continue; without tool calls capture the content and stop.
Returns the `final_content` variable (`Option.none` both when the bound was
exhausted and when the final response's content was `None` — exactly the
cases Python's `final_content is None` test catches) and the message list. -/
def runIterations (chat : List ChatMsg → LLMResponse)
    (executeToolCall : ToolCallReq → String) :
    Nat → List ChatMsg → Option String × List ChatMsg
  | 0, messages => (Option.none, messages)
  | n + 1, messages =>
    let response := chat messages
    match response.tool_calls with
    | [] => (response.content, messages)
    | _ :: _ =>
      let tool_call_dicts := response.tool_calls.map (fun tc =>
        ToolCallRecord.mk tc.id tc.name tc.arguments)
      let messages2 := add_assistant_message messages response.content
        tool_call_dicts
      let messages3 := response.tool_calls.foldl
        (fun ms tc => add_tool_result ms tc.id tc.name (executeToolCall tc))
        messages2
      runIterations chat executeToolCall n messages3

/-- The origin parsing of `_process_system_message` (loop.py:509-516):
`chat_id.split(":", 1)` when a colon is present. -/
def splitOnceColon (s : String) : Option (String × String) :=
  match s.toList.findIdx? (fun c => c == ':') with
  | Option.none => Option.none
  | some i => some (String.mk (s.toList.take i), String.mk (s.toList.drop (i + 1)))

/-- `AgentLoop._process_system_message` (loop.py:499-604), with the LLM, the
tool dispatch and the context building abstracted as functions, and the
`OutboundMessage` default timestamp as `now`.  Session persistence carries no
weight for the claims and is not modelled. -/
def process_system_message (chat : List ChatMsg → LLMResponse)
    (executeToolCall : ToolCallReq → String)
    (buildSystem : String → String → String → List ChatMsg)
    (max_iterations : Nat) (now : PyDateTime) (msg : InboundMessage) :
    OutboundMessage :=
  let origin :=
    match splitOnceColon msg.chat_id with
    | some p => p
    | Option.none => ("cli", msg.chat_id)
  let messages := buildSystem origin.1 origin.2 msg.content
  let r := runIterations chat executeToolCall max_iterations messages
  let final_content :=
    match r.1 with
    | Option.none => "Background task completed."
    | some c => c
  ⟨origin.1, origin.2, final_content, Option.none, now⟩

/-- `AgentLoop._process_message` (loop.py:384-497): system-channel messages
are delegated; otherwise the loop runs and the reply is routed back to the
message's own channel and chat id, with the canned fallback when no final
content was produced within the bound. -/
def process_message (chat : List ChatMsg → LLMResponse)
    (executeToolCall : ToolCallReq → String)
    (build : InboundMessage → List ChatMsg)
    (buildSystem : String → String → String → List ChatMsg)
    (max_iterations : Nat) (now : PyDateTime) (msg : InboundMessage) :
    OutboundMessage :=
  if msg.channel = "system" then
    process_system_message chat executeToolCall buildSystem max_iterations now
      msg
  else
    let messages := build msg
    let r := runIterations chat executeToolCall max_iterations messages
    let final_content :=
      match r.1 with
      | Option.none =>
        "I" ++ sq ++ "ve completed processing but have no response to give."
      | some c => c
    ⟨msg.channel, msg.chat_id, final_content, Option.none, now⟩

/-- When every LLM response carries tool calls, the loop never breaks with
content: `final_content` stays `None` for every bound. -/
theorem runIterations_none (chat : List ChatMsg → LLMResponse)
    (executeToolCall : ToolCallReq → String)
    (h : ∀ ms, (chat ms).tool_calls ≠ []) :
    ∀ (n : Nat) (messages : List ChatMsg),
      (runIterations chat executeToolCall n messages).1 = Option.none := by
  intro n
  induction n with
  | zero => intro messages; rfl
  | succ n ih =>
    intro messages
    simp only [runIterations]
    rcases hc : (chat messages).tool_calls with _ | ⟨tc, rest⟩
    · exact absurd hc (h messages)
    · simp only [hc]
      exact ih _

/-- C8: when every LLM response within the bound carries tool calls (so no
final content is produced), an ordinary message is answered on its own
channel and chat id with exactly "I've completed processing but have no
response to give.", and a system-channel message's reply content is exactly
"Background task completed.". -/
theorem c8_canned_fallback (chat : List ChatMsg → LLMResponse)
    (executeToolCall : ToolCallReq → String)
    (build : InboundMessage → List ChatMsg)
    (buildSystem : String → String → String → List ChatMsg)
    (max_iterations : Nat) (now : PyDateTime) (msg : InboundMessage)
    (h : ∀ ms, (chat ms).tool_calls ≠ []) :
    (msg.channel ≠ "system" →
      process_message chat executeToolCall build buildSystem max_iterations
          now msg
        = ⟨msg.channel, msg.chat_id,
           "I" ++ sq ++ "ve completed processing but have no response to give.",
           Option.none, now⟩)
  ∧ (msg.channel = "system" →
      (process_message chat executeToolCall build buildSystem max_iterations
          now msg).content = "Background task completed.") := by
  constructor
  · intro hns
    rw [process_message, if_neg hns]
    simp only [runIterations_none chat executeToolCall h]
  · intro hsys
    rw [process_message, if_pos hsys, process_system_message]
    simp only [runIterations_none chat executeToolCall h]

/-- C8, witness: a provider stub that always returns one tool call exhausts
the bound; an ordinary message gets the canned no-response reply on its own
routing tuple, a system message gets "Background task completed.". -/
theorem c8_witness :
    process_message (fun _ => ⟨some "x", [⟨"1", "t", []⟩]⟩) (fun _ => "r")
      (fun _ => []) (fun _ _ _ => []) 20 ⟨2024, 1, 1, 0, 0, 0, 0⟩
      ⟨"cli", "u", "chat7", "hello", Option.none, ⟨2024, 1, 1, 0, 0, 0, 0⟩⟩
    = ⟨"cli", "chat7",
       "I" ++ sq ++ "ve completed processing but have no response to give.",
       Option.none, ⟨2024, 1, 1, 0, 0, 0, 0⟩⟩
  ∧ (process_message (fun _ => ⟨some "x", [⟨"1", "t", []⟩]⟩) (fun _ => "r")
      (fun _ => []) (fun _ _ _ => []) 20 ⟨2024, 1, 1, 0, 0, 0, 0⟩
      ⟨"system", "subagent", "cli:u1", "done", Option.none,
        ⟨2024, 1, 1, 0, 0, 0, 0⟩⟩).content = "Background task completed." :=
  ⟨(c8_canned_fallback (fun _ => ⟨some "x", [⟨"1", "t", []⟩]⟩) (fun _ => "r")
      (fun _ => []) (fun _ _ _ => []) 20 ⟨2024, 1, 1, 0, 0, 0, 0⟩
      ⟨"cli", "u", "chat7", "hello", Option.none, ⟨2024, 1, 1, 0, 0, 0, 0⟩⟩
      (fun _ => by simp)).1 (by decide),
   (c8_canned_fallback (fun _ => ⟨some "x", [⟨"1", "t", []⟩]⟩) (fun _ => "r")
      (fun _ => []) (fun _ _ _ => []) 20 ⟨2024, 1, 1, 0, 0, 0, 0⟩
      ⟨"system", "subagent", "cli:u1", "done", Option.none,
        ⟨2024, 1, 1, 0, 0, 0, 0⟩⟩
      (fun _ => by simp)).2 rfl⟩

/-! ## ISO-8601 timestamps

`datetime.isoformat` / `datetime.fromisoformat` are Python stdlib, external
to the repository; they are modelled on the grammar `isoformat` emits for
naive datetimes: `YYYY-MM-DDTHH:MM:SS` with a 6-digit `.ffffff` suffix when
the microsecond field is nonzero. -/

/-- The ASCII digit character for `d < 10`. -/
def digitChar10 (d : Nat) : Char := Char.ofNat (48 + d)

/-- Decimal digit characters of `n`, most significant first (empty for 0). -/
def natDigits (n : Nat) : List Char := (Nat.digits 10 n).reverse.map digitChar10

/-- `n` zero-padded to width `w`. -/
def padNat (w n : Nat) : List Char :=
  List.replicate (w - (natDigits n).length) '0' ++ natDigits n

/-- Numeric value of a digit string, most significant first. -/
def charsToNat (ds : List Char) : Nat :=
  ds.foldl (fun a c => a * 10 + (c.toNat - 48)) 0

/-- Fixed-width decimal field parser: exactly `w` digits, then the rest. -/
def parseFixedNat (w : Nat) (l : List Char) : Option (Nat × List Char) :=
  if (l.take w).length = w ∧ (l.take w).all Char.isDigit then
    some (charsToNat (l.take w), l.drop w)
  else Option.none

/-- One expected literal character. -/
def expectCharP (c : Char) : List Char → Option (List Char)
  | [] => Option.none
  | x :: xs => if x = c then some xs else Option.none

/-- `datetime.isoformat()` at character-list level (right-nested so that
each field is followed syntactically by the rest of the string). -/
def isoformatList (d : PyDateTime) : List Char :=
  padNat 4 d.year ++ ('-' :: (padNat 2 d.month ++ ('-' :: (padNat 2 d.day
  ++ ('T' :: (padNat 2 d.hour ++ (':' :: (padNat 2 d.minute
  ++ (':' :: (padNat 2 d.second
  ++ (if d.microsecond = 0 then [] else '.' :: padNat 6 d.microsecond)))))))))))

/-- `datetime.isoformat()`. -/
def PyDateTime.isoformat (d : PyDateTime) : String := String.mk (isoformatList d)

/-- `datetime.fromisoformat` on the grammar `isoformat` emits; `Option.none`
models the `ValueError` it raises on anything else. -/
def fromisoList (l : List Char) : Option PyDateTime :=
  match parseFixedNat 4 l with
  | Option.none => Option.none
  | some (y, l) =>
  match expectCharP '-' l with
  | Option.none => Option.none
  | some l =>
  match parseFixedNat 2 l with
  | Option.none => Option.none
  | some (mo, l) =>
  match expectCharP '-' l with
  | Option.none => Option.none
  | some l =>
  match parseFixedNat 2 l with
  | Option.none => Option.none
  | some (da, l) =>
  match expectCharP 'T' l with
  | Option.none => Option.none
  | some l =>
  match parseFixedNat 2 l with
  | Option.none => Option.none
  | some (h, l) =>
  match expectCharP ':' l with
  | Option.none => Option.none
  | some l =>
  match parseFixedNat 2 l with
  | Option.none => Option.none
  | some (mi, l) =>
  match expectCharP ':' l with
  | Option.none => Option.none
  | some l =>
  match parseFixedNat 2 l with
  | Option.none => Option.none
  | some (s, l) =>
  match l with
  | [] => some ⟨y, mo, da, h, mi, s, 0⟩
  | '.' :: rest =>
    match parseFixedNat 6 rest with
    | some (us, []) => some ⟨y, mo, da, h, mi, s, us⟩
    | _ => Option.none
  | _ => Option.none

/-- `datetime.fromisoformat`. -/
def PyDateTime.fromisoformat (s : String) : Option PyDateTime :=
  fromisoList s.toList

/-- The invariants Python's `datetime` constructor enforces on its fields. -/
abbrev PyDateTime.valid (d : PyDateTime) : Prop :=
  1 ≤ d.year ∧ d.year ≤ 9999 ∧ 1 ≤ d.month ∧ d.month ≤ 12
  ∧ 1 ≤ d.day ∧ d.day ≤ 31 ∧ d.hour ≤ 23 ∧ d.minute ≤ 59 ∧ d.second ≤ 59
  ∧ d.microsecond ≤ 999999

theorem charsToNat_append_singleton (l : List Char) (c : Char) :
    charsToNat (l ++ [c]) = charsToNat l * 10 + (c.toNat - 48) := by
  simp [charsToNat, List.foldl_append]

theorem charsToNat_natDigits (n : Nat) : charsToNat (natDigits n) = n := by
  have key : ∀ (L : List Nat), (∀ d ∈ L, d < 10) →
      charsToNat (L.reverse.map digitChar10) = Nat.ofDigits 10 L := by
    intro L
    induction L with
    | nil => intro _; simp [charsToNat, Nat.ofDigits]
    | cons d t ih =>
      intro hmem
      have hd : d < 10 := hmem d (by simp)
      have ht := ih (fun x hx => hmem x (by simp [hx]))
      rw [List.reverse_cons, List.map_append]
      simp only [List.map_cons, List.map_nil]
      rw [charsToNat_append_singleton, ht, Nat.ofDigits_cons]
      have hdigit : (digitChar10 d).toNat - 48 = d := by
        have hall : ∀ x, x < 10 → (digitChar10 x).toNat - 48 = x := by decide
        exact hall d hd
      rw [hdigit]
      ring
  rw [natDigits,
    key _ (fun d hd => Nat.digits_lt_base (by norm_num) hd),
    Nat.ofDigits_digits]

theorem charsToNat_replicate_zero (k : Nat) (ds : List Char) :
    charsToNat (List.replicate k '0' ++ ds) = charsToNat ds := by
  induction k with
  | zero => simp
  | succ k ih =>
    rw [List.replicate_succ]
    simpa [charsToNat] using ih

theorem natDigits_length_le {w n : Nat} (h : n < 10 ^ w) :
    (natDigits n).length ≤ w := by
  rw [natDigits, List.length_map, List.length_reverse]
  rcases Nat.eq_zero_or_pos n with rfl | hn
  · simp
  · rw [Nat.digits_len 10 n (by norm_num) (by omega)]
    have := Nat.log_lt_of_lt_pow (by omega : n ≠ 0) h
    omega

theorem padNat_length {w n : Nat} (h : n < 10 ^ w) : (padNat w n).length = w := by
  have := natDigits_length_le h
  simp [padNat]
  omega

theorem padNat_all_digits (w n : Nat) : (padNat w n).all Char.isDigit = true := by
  rw [List.all_eq_true]
  intro c hc
  rw [padNat, List.mem_append] at hc
  rcases hc with hc | hc
  · rw [List.eq_of_mem_replicate hc]
    decide
  · rw [natDigits, List.mem_map] at hc
    obtain ⟨d, hd, rfl⟩ := hc
    have hd10 : d < 10 :=
      Nat.digits_lt_base (by norm_num) (List.mem_reverse.mp hd)
    have hall : ∀ x, x < 10 → (digitChar10 x).isDigit = true := by decide
    exact hall d hd10

theorem charsToNat_padNat (w n : Nat) : charsToNat (padNat w n) = n := by
  rw [padNat, charsToNat_replicate_zero, charsToNat_natDigits]

theorem parseFixedNat_padNat {w n : Nat} (h : n < 10 ^ w) (rest : List Char) :
    parseFixedNat w (padNat w n ++ rest) = some (n, rest) := by
  have hlen := padNat_length h
  have htake : (padNat w n ++ rest).take w = padNat w n := List.take_left' hlen
  have hdrop : (padNat w n ++ rest).drop w = rest := List.drop_left' hlen
  rw [parseFixedNat, htake, hdrop, if_pos ⟨hlen, padNat_all_digits w n⟩,
    charsToNat_padNat]

theorem parseFixedNat_padNat_nil {w n : Nat} (h : n < 10 ^ w) :
    parseFixedNat w (padNat w n) = some (n, []) := by
  have := parseFixedNat_padNat h ([] : List Char)
  rwa [List.append_nil] at this

/-- Round-trip for the timestamp field: `fromisoformat (isoformat d) = d`
for every well-formed datetime. -/
theorem fromisoformat_isoformat (d : PyDateTime) (hv : d.valid) :
    PyDateTime.fromisoformat d.isoformat = some d := by
  obtain ⟨y, mo, da, hh, mi, ss, us⟩ := d
  obtain ⟨h1, h2, h3, h4, h5, h6, h7, h8, h9, h10⟩ := hv
  simp only [PyDateTime.valid] at *
  have hy : y < 10 ^ 4 := by omega
  have hmo : mo < 10 ^ 2 := by omega
  have hda : da < 10 ^ 2 := by omega
  have hhh : hh < 10 ^ 2 := by omega
  have hmi : mi < 10 ^ 2 := by omega
  have hs : ss < 10 ^ 2 := by omega
  show fromisoList (isoformatList ⟨y, mo, da, hh, mi, ss, us⟩) = _
  rw [isoformatList]
  by_cases hus : us = 0
  · simp only [hus, if_pos rfl, List.append_nil]
    simp only [fromisoList, parseFixedNat_padNat hy, parseFixedNat_padNat hmo,
      parseFixedNat_padNat hda, parseFixedNat_padNat hhh,
      parseFixedNat_padNat hmi, parseFixedNat_padNat_nil hs, expectCharP,
      if_pos rfl, if_true, eq_self_iff_true, List.append_nil]
  · have hus6 : us < 10 ^ 6 := by omega
    simp only [if_neg hus]
    simp only [fromisoList, parseFixedNat_padNat hy, parseFixedNat_padNat hmo,
      parseFixedNat_padNat hda, parseFixedNat_padNat hhh,
      parseFixedNat_padNat hmi, parseFixedNat_padNat hs,
      parseFixedNat_padNat_nil hus6, expectCharP, if_pos rfl, if_true,
      eq_self_iff_true]

/-! ## JSON payloads

`json.dumps` / `json.loads` are Python stdlib, external to the repository;
they are modelled over the JSON fragment the envelopes use: strings, `null`,
arrays and objects (no numbers or booleans appear in the §3 envelopes).
`dumps` uses the default separators `", "` / `": "`; string escaping covers
the quote, the backslash, the short control escapes and `\u00XX` for other
control characters, with non-ASCII characters kept verbatim (the
`ensure_ascii` `\uXXXX` transport encoding is invertible exactly like the
verbatim one, and no theorem below depends on it).  `loads` is a
recursive-descent parser over the same fragment, fuelled by the input
length. -/

inductive Json where
  | str (s : List Char)
  | null
  | arr (xs : List Json)
  | obj (fields : List (List Char × Json))

/-- `"` -/
def quoteC : Char := Char.ofNat 34

/-- `\` -/
def backslashC : Char := Char.ofNat 92

/-- Opening curly brace. -/
def lbraceC : Char := Char.ofNat 123

/-- Closing curly brace. -/
def rbraceC : Char := Char.ofNat 125

/-- Lowercase hex digit for `n < 16`. -/
def hexDigitChar (n : Nat) : Char :=
  Char.ofNat (if n < 10 then 48 + n else 87 + n)

/-- JSON string escaping of one character (see the module comment). -/
def escapeChar (c : Char) : List Char :=
  if c = quoteC then [backslashC, quoteC]
  else if c = backslashC then [backslashC, backslashC]
  else if c = '\n' then [backslashC, 'n']
  else if c = '\t' then [backslashC, 't']
  else if c = '\r' then [backslashC, 'r']
  else if c = Char.ofNat 8 then [backslashC, 'b']
  else if c = Char.ofNat 12 then [backslashC, 'f']
  else if c.toNat < 32 then
    [backslashC, 'u', '0', '0', hexDigitChar (c.toNat / 16),
     hexDigitChar (c.toNat % 16)]
  else [c]

/-- Escaped body of a JSON string literal. -/
def escapeString (s : List Char) : List Char := (s.map escapeChar).flatten

/-- A JSON string literal: quote, escaped body, quote. -/
def serializeString (s : List Char) : List Char :=
  quoteC :: (escapeString s ++ [quoteC])

mutual

/-- `json.dumps` over the modelled fragment, default separators. -/
def serializeJson : Json → List Char
  | Json.str s => serializeString s
  | Json.null => 'n' :: 'u' :: 'l' :: ['l']
  | Json.arr xs => '[' :: (serializeItems xs ++ [']'])
  | Json.obj fs => lbraceC :: (serializeFields fs ++ [rbraceC])

/-- Array elements joined by `", "`. -/
def serializeItems : List Json → List Char
  | [] => []
  | [x] => serializeJson x
  | x :: y :: t => serializeJson x ++ (',' :: ' ' :: serializeItems (y :: t))

/-- Object entries `"key": value` joined by `", "`. -/
def serializeFields : List (List Char × Json) → List Char
  | [] => []
  | [(k, v)] => serializeString k ++ (':' :: ' ' :: serializeJson v)
  | (k, v) :: y :: t =>
    serializeString k ++ (':' :: ' ' :: (serializeJson v
      ++ (',' :: ' ' :: serializeFields (y :: t))))

end

/-- JSON whitespace skipping. -/
def skipWs (l : List Char) : List Char :=
  l.dropWhile (fun c => c == ' ' || c == '\t' || c == '\n' || c == '\r')

/-- Value of one hex digit character. -/
def hexVal (c : Char) : Option Nat :=
  if '0' ≤ c ∧ c ≤ '9' then some (c.toNat - 48)
  else if 'a' ≤ c ∧ c ≤ 'f' then some (c.toNat - 87)
  else if 'A' ≤ c ∧ c ≤ 'F' then some (c.toNat - 55)
  else Option.none

/-- Parse a JSON string body after the opening quote: returns the decoded
characters and the input after the closing quote.  `\uXXXX` escapes are
accepted for scalar values only (the repository's payloads never contain
surrogate-pair escapes). -/
def parseStringBody : List Char → Option (List Char × List Char)
  | [] => Option.none
  | c :: rest =>
    if c = quoteC then some ([], rest)
    else if c = backslashC then
      match rest with
      | [] => Option.none
      | e :: r2 =>
        if e = quoteC then
          (parseStringBody r2).map (fun p => (quoteC :: p.1, p.2))
        else if e = backslashC then
          (parseStringBody r2).map (fun p => (backslashC :: p.1, p.2))
        else if e = '/' then
          (parseStringBody r2).map (fun p => ('/' :: p.1, p.2))
        else if e = 'n' then
          (parseStringBody r2).map (fun p => ('\n' :: p.1, p.2))
        else if e = 't' then
          (parseStringBody r2).map (fun p => ('\t' :: p.1, p.2))
        else if e = 'r' then
          (parseStringBody r2).map (fun p => ('\r' :: p.1, p.2))
        else if e = 'b' then
          (parseStringBody r2).map (fun p => (Char.ofNat 8 :: p.1, p.2))
        else if e = 'f' then
          (parseStringBody r2).map (fun p => (Char.ofNat 12 :: p.1, p.2))
        else if e = 'u' then
          match r2 with
          | h1 :: h2 :: h3 :: h4 :: r3 =>
            match hexVal h1, hexVal h2, hexVal h3, hexVal h4 with
            | some a, some b, some c2, some d2 =>
              let n := ((a * 16 + b) * 16 + c2) * 16 + d2
              if n < 55296 then
                (parseStringBody r3).map (fun p => (Char.ofNat n :: p.1, p.2))
              else Option.none
            | _, _, _, _ => Option.none
          | _ => Option.none
        else Option.none
    else (parseStringBody rest).map (fun p => (c :: p.1, p.2))
termination_by l => l.length
decreasing_by all_goals (simp [List.length_drop]; try omega)

mutual

/-- One JSON value, by recursive descent; the fuel bounds nesting work and is
set to the input length plus one at the top level. -/
def parseValueF : Nat → List Char → Option (Json × List Char)
  | 0, _ => Option.none
  | n + 1, l =>
    match skipWs l with
    | [] => Option.none
    | c :: rest =>
      if c = quoteC then
        (parseStringBody rest).map (fun p => (Json.str p.1, p.2))
      else if c = 'n' then
        if ('u' :: 'l' :: ['l']).isPrefixOf rest then
          some (Json.null, rest.drop 3)
        else Option.none
      else if c = '[' then
        match skipWs rest with
        | [] => Option.none
        | c2 :: r2 =>
          if c2 = ']' then some (Json.arr [], r2)
          else (parseItemsF n rest).map (fun p => (Json.arr p.1, p.2))
      else if c = lbraceC then
        match skipWs rest with
        | [] => Option.none
        | c2 :: r2 =>
          if c2 = rbraceC then some (Json.obj [], r2)
          else (parseFieldsF n rest).map (fun p => (Json.obj p.1, p.2))
      else Option.none

/-- Array elements after `[`, up to and including `]`. -/
def parseItemsF : Nat → List Char → Option (List Json × List Char)
  | 0, _ => Option.none
  | n + 1, l =>
    match parseValueF n l with
    | Option.none => Option.none
    | some (v, r) =>
      match skipWs r with
      | [] => Option.none
      | c2 :: r2 =>
        if c2 = ',' then (parseItemsF n r2).map (fun p => (v :: p.1, p.2))
        else if c2 = ']' then some ([v], r2)
        else Option.none

/-- Object entries after the opening brace, up to and including the closing
brace. -/
def parseFieldsF : Nat → List Char → Option (List (List Char × Json) × List Char)
  | 0, _ => Option.none
  | n + 1, l =>
    match skipWs l with
    | [] => Option.none
    | c :: rest =>
      if c = quoteC then
        match parseStringBody rest with
        | Option.none => Option.none
        | some (k, r) =>
          match skipWs r with
          | [] => Option.none
          | c2 :: r2 =>
            if c2 = ':' then
              match parseValueF n r2 with
              | Option.none => Option.none
              | some (v, r3) =>
                match skipWs r3 with
                | [] => Option.none
                | c3 :: r4 =>
                  if c3 = ',' then
                    (parseFieldsF n r4).map (fun p => ((k, v) :: p.1, p.2))
                  else if c3 = rbraceC then some ([(k, v)], r4)
                  else Option.none
            else Option.none
      else Option.none

end

/-- `json.loads` over the modelled fragment: a full parse up to trailing
whitespace; `Option.none` models `json.JSONDecodeError`. -/
def loads (s : String) : Option Json :=
  match parseValueF (s.toList.length + 1) s.toList with
  | some (j, r) => if skipWs r = [] then some j else Option.none
  | Option.none => Option.none

/-- `json.dumps` over the modelled fragment. -/
def dumps (j : Json) : String := String.mk (serializeJson j)

theorem escapeString_nil : escapeString [] = [] := by
  simp [escapeString]

theorem escapeString_cons (c : Char) (t : List Char) :
    escapeString (c :: t) = escapeChar c ++ escapeString t := by
  simp [escapeString]

/-- Parsing inverts escaping: the string body parser consumes the escaped
characters and stops at the closing quote. -/
theorem parseStringBody_escape (s : List Char) : ∀ rest : List Char,
    parseStringBody (escapeString s ++ (quoteC :: rest)) = some (s, rest) := by
  induction s with
  | nil =>
    intro rest
    rw [escapeString_nil, List.nil_append, parseStringBody.eq_def]
    simp
  | cons c t ih =>
    intro rest
    rw [escapeString_cons, List.append_assoc]
    by_cases hc1 : c = quoteC
    · subst hc1
      rw [show escapeChar quoteC = [backslashC, quoteC] from by decide]
      simp only [List.cons_append, List.nil_append]
      rw [parseStringBody.eq_def]
      simp [show ¬ backslashC = quoteC from by decide, ih]
    by_cases hc2 : c = backslashC
    · subst hc2
      rw [show escapeChar backslashC = [backslashC, backslashC] from by decide]
      simp only [List.cons_append, List.nil_append]
      rw [parseStringBody.eq_def]
      simp [show ¬ backslashC = quoteC from by decide, ih]
    by_cases hc3 : c = '\n'
    · subst hc3
      rw [show escapeChar '\n' = [backslashC, 'n'] from by decide]
      simp only [List.cons_append, List.nil_append]
      rw [parseStringBody.eq_def]
      simp [show ¬ backslashC = quoteC from by decide,
        show ¬ 'n' = quoteC from by decide,
        show ¬ 'n' = backslashC from by decide, ih]
    by_cases hc4 : c = '\t'
    · subst hc4
      rw [show escapeChar '\t' = [backslashC, 't'] from by decide]
      simp only [List.cons_append, List.nil_append]
      rw [parseStringBody.eq_def]
      simp [show ¬ backslashC = quoteC from by decide,
        show ¬ 't' = quoteC from by decide,
        show ¬ 't' = backslashC from by decide, ih]
    by_cases hc5 : c = '\r'
    · subst hc5
      rw [show escapeChar '\r' = [backslashC, 'r'] from by decide]
      simp only [List.cons_append, List.nil_append]
      rw [parseStringBody.eq_def]
      simp [show ¬ backslashC = quoteC from by decide,
        show ¬ 'r' = quoteC from by decide,
        show ¬ 'r' = backslashC from by decide, ih]
    by_cases hc6 : c = Char.ofNat 8
    · subst hc6
      rw [show escapeChar (Char.ofNat 8) = [backslashC, 'b'] from by decide]
      simp only [List.cons_append, List.nil_append]
      rw [parseStringBody.eq_def]
      simp [show ¬ backslashC = quoteC from by decide,
        show ¬ 'b' = quoteC from by decide,
        show ¬ 'b' = backslashC from by decide, ih]
    by_cases hc7 : c = Char.ofNat 12
    · subst hc7
      rw [show escapeChar (Char.ofNat 12) = [backslashC, 'f'] from by decide]
      simp only [List.cons_append, List.nil_append]
      rw [parseStringBody.eq_def]
      simp [show ¬ backslashC = quoteC from by decide,
        show ¬ 'f' = quoteC from by decide,
        show ¬ 'f' = backslashC from by decide, ih]
    by_cases h32 : c.toNat < 32
    · rw [show escapeChar c = [backslashC, 'u', '0', '0',
          hexDigitChar (c.toNat / 16), hexDigitChar (c.toNat % 16)] from by
        rw [escapeChar, if_neg hc1, if_neg hc2, if_neg hc3, if_neg hc4,
          if_neg hc5, if_neg hc6, if_neg hc7, if_pos h32]]
      simp only [List.cons_append, List.nil_append]
      rw [parseStringBody.eq_def]
      have hall : ∀ d, d < 16 → hexVal (hexDigitChar d) = some d := by decide
      have hd1 : hexVal (hexDigitChar (c.toNat / 16)) = some (c.toNat / 16) :=
        hall _ (by omega)
      have hd2 : hexVal (hexDigitChar (c.toNat % 16)) = some (c.toNat % 16) :=
        hall _ (by omega)
      have harith : ((0 * 16 + 0) * 16 + c.toNat / 16) * 16 + c.toNat % 16
          = c.toNat := by omega
      simp [show ¬ backslashC = quoteC from by decide,
        show ¬ 'u' = quoteC from by decide,
        show ¬ 'u' = backslashC from by decide,
        show hexVal '0' = some 0 from by decide, hd1, hd2, harith,
        show c.toNat < 55296 from by omega, ih]
      constructor
      · omega
      · rw [show c.toNat / 16 * 16 + c.toNat % 16 = c.toNat from by omega,
          Char.ofNat_toNat]
    · rw [show escapeChar c = [c] from by
        rw [escapeChar, if_neg hc1, if_neg hc2, if_neg hc3, if_neg hc4,
          if_neg hc5, if_neg hc6, if_neg hc7, if_neg h32]]
      simp only [List.cons_append, List.nil_append]
      rw [parseStringBody.eq_def]
      simp [hc1, hc2, ih]

theorem parseValueF_succ (n : Nat) (l : List Char) :
    parseValueF (n + 1) l =
      match skipWs l with
      | [] => Option.none
      | c :: rest =>
        if c = quoteC then
          (parseStringBody rest).map (fun p => (Json.str p.1, p.2))
        else if c = 'n' then
          if ('u' :: 'l' :: ['l']).isPrefixOf rest then
            some (Json.null, rest.drop 3)
          else Option.none
        else if c = '[' then
          match skipWs rest with
          | [] => Option.none
          | c2 :: r2 =>
            if c2 = ']' then some (Json.arr [], r2)
            else (parseItemsF n rest).map (fun p => (Json.arr p.1, p.2))
        else if c = lbraceC then
          match skipWs rest with
          | [] => Option.none
          | c2 :: r2 =>
            if c2 = rbraceC then some (Json.obj [], r2)
            else (parseFieldsF n rest).map (fun p => (Json.obj p.1, p.2))
        else Option.none := by
  rw [parseValueF.eq_def]

theorem parseItemsF_succ (n : Nat) (l : List Char) :
    parseItemsF (n + 1) l =
      match parseValueF n l with
      | Option.none => Option.none
      | some (v, r) =>
        match skipWs r with
        | [] => Option.none
        | c2 :: r2 =>
          if c2 = ',' then (parseItemsF n r2).map (fun p => (v :: p.1, p.2))
          else if c2 = ']' then some ([v], r2)
          else Option.none := by
  rw [parseItemsF.eq_def]

theorem parseFieldsF_succ (n : Nat) (l : List Char) :
    parseFieldsF (n + 1) l =
      match skipWs l with
      | [] => Option.none
      | c :: rest =>
        if c = quoteC then
          match parseStringBody rest with
          | Option.none => Option.none
          | some (k, r) =>
            match skipWs r with
            | [] => Option.none
            | c2 :: r2 =>
              if c2 = ':' then
                match parseValueF n r2 with
                | Option.none => Option.none
                | some (v, r3) =>
                  match skipWs r3 with
                  | [] => Option.none
                  | c3 :: r4 =>
                    if c3 = ',' then
                      (parseFieldsF n r4).map (fun p => ((k, v) :: p.1, p.2))
                    else if c3 = rbraceC then some ([(k, v)], r4)
                    else Option.none
              else Option.none
        else Option.none := by
  rw [parseFieldsF.eq_def]

theorem skipWs_cons (c : Char) (l : List Char)
    (h : (c == ' ' || c == '\t' || c == '\n' || c == '\r') = false) :
    skipWs (c :: l) = c :: l := by
  simp only [skipWs, List.dropWhile_cons, h]
  simp

theorem skipWs_space (l : List Char) : skipWs (' ' :: l) = skipWs l := by
  simp [skipWs, List.dropWhile_cons]

/-- Parsing a serialized string value. -/
theorem parseValueF_string (n : Nat) (s rest : List Char) :
    parseValueF (n + 1) (serializeString s ++ rest) = some (Json.str s, rest) := by
  rw [serializeString]
  simp only [List.cons_append, List.append_assoc, List.singleton_append]
  rw [parseValueF_succ]
  rw [skipWs_cons _ _ (by decide)]
  simp [parseStringBody_escape]

/-- A value parse is insensitive to one leading space. -/
theorem parseValueF_space (n : Nat) (l : List Char) :
    parseValueF n (' ' :: l) = parseValueF n l := by
  cases n with
  | zero => rfl
  | succ n =>
    simp only [parseValueF_succ, skipWs_space]

/-- Parsing a serialized `null`. -/
theorem parseValueF_null (n : Nat) (rest : List Char) :
    parseValueF (n + 1) (serializeJson Json.null ++ rest)
      = some (Json.null, rest) := by
  rw [serializeJson]
  simp only [List.cons_append, List.nil_append]
  rw [parseValueF_succ]
  rw [skipWs_cons _ _ (by decide)]
  simp [show ¬ 'n' = quoteC from by decide, List.isPrefixOf]

/-- How much fuel a flat value needs. -/
def valueNeed : Json → Nat
  | Json.arr xs => xs.length + 1
  | _ => 1

/-- The value shapes the §3 envelopes use: strings, `null`, and arrays of
strings. -/
inductive IsFlatVal : Json → Prop where
  | str (s : List Char) : IsFlatVal (Json.str s)
  | null : IsFlatVal Json.null
  | arr (ss : List (List Char)) : IsFlatVal (Json.arr (List.map Json.str ss))

theorem serializeJson_str (s : List Char) :
    serializeJson (Json.str s) = serializeString s := by
  rw [serializeJson.eq_def]

theorem serializeJson_arr (xs : List Json) :
    serializeJson (Json.arr xs) = '[' :: (serializeItems xs ++ [']']) := by
  rw [serializeJson.eq_def]

theorem serializeJson_obj (fs : List (List Char × Json)) :
    serializeJson (Json.obj fs) = lbraceC :: (serializeFields fs ++ [rbraceC]) := by
  rw [serializeJson.eq_def]

theorem serializeItems_nil : serializeItems [] = [] := by
  rw [serializeItems.eq_def]

theorem serializeItems_single (x : Json) : serializeItems [x] = serializeJson x := by
  rw [serializeItems.eq_def]

theorem serializeItems_cons2 (x y : Json) (t : List Json) :
    serializeItems (x :: y :: t)
      = serializeJson x ++ (',' :: ' ' :: serializeItems (y :: t)) := by
  rw [serializeItems.eq_def]

theorem serializeFields_single (k : List Char) (v : Json) :
    serializeFields [(k, v)]
      = serializeString k ++ (':' :: ' ' :: serializeJson v) := by
  rw [serializeFields.eq_def]

theorem serializeFields_cons2 (k : List Char) (v : Json) (y : List Char × Json)
    (t : List (List Char × Json)) :
    serializeFields ((k, v) :: y :: t)
      = serializeString k ++ (':' :: ' ' :: (serializeJson v
          ++ (',' :: ' ' :: serializeFields (y :: t)))) := by
  rw [serializeFields.eq_def]

theorem skipWs_quote (l : List Char) : skipWs (quoteC :: l) = quoteC :: l :=
  skipWs_cons _ _ (by decide)

theorem skipWs_rbrack (l : List Char) : skipWs (']' :: l) = ']' :: l :=
  skipWs_cons _ _ (by decide)

theorem skipWs_lbrack (l : List Char) : skipWs ('[' :: l) = '[' :: l :=
  skipWs_cons _ _ (by decide)

theorem skipWs_comma (l : List Char) : skipWs (',' :: l) = ',' :: l :=
  skipWs_cons _ _ (by decide)

theorem skipWs_colon (l : List Char) : skipWs (':' :: l) = ':' :: l :=
  skipWs_cons _ _ (by decide)

theorem skipWs_lbraceC (l : List Char) : skipWs (lbraceC :: l) = lbraceC :: l :=
  skipWs_cons _ _ (by decide)

theorem skipWs_rbraceC (l : List Char) : skipWs (rbraceC :: l) = rbraceC :: l :=
  skipWs_cons _ _ (by decide)

theorem parseItemsF_space (n : Nat) (l : List Char) :
    parseItemsF (n + 1) (' ' :: l) = parseItemsF (n + 1) l := by
  simp only [parseItemsF_succ, parseValueF_space]

theorem parseFieldsF_space (n : Nat) (l : List Char) :
    parseFieldsF (n + 1) (' ' :: l) = parseFieldsF (n + 1) l := by
  simp only [parseFieldsF_succ, skipWs_space]

/-- Parsing serialized array elements that are all strings. -/
theorem parseItemsF_strings (ss : List (List Char)) :
    ss ≠ [] → ∀ (n : Nat), ss.length ≤ n → ∀ rest : List Char,
      parseItemsF (n + 1) (serializeItems (ss.map Json.str) ++ (']' :: rest))
        = some (ss.map Json.str, rest) := by
  induction ss with
  | nil => intro hne; exact absurd rfl hne
  | cons s ss ih =>
    intro _ n hn rest
    rcases ss with _ | ⟨s2, ss2⟩
    · obtain ⟨m, rfl⟩ : ∃ m, n = m + 1 := ⟨n - 1, by simp at hn; omega⟩
      rw [List.map_cons, List.map_nil, serializeItems_single, serializeJson_str,
        parseItemsF_succ, parseValueF_string]
      simp [skipWs_rbrack, show ¬ ']' = ',' from by decide]
    · obtain ⟨m, rfl⟩ : ∃ m, n = m + 1 := ⟨n - 1, by simp at hn; omega⟩
      have hm : (s2 :: ss2).length ≤ m := by simp at hn ⊢; omega
      obtain ⟨k, rfl⟩ : ∃ k, m = k + 1 := ⟨m - 1, by simp at hm; omega⟩
      have hih := ih (by simp) (k + 1) hm rest
      rw [List.map_cons, List.map_cons, serializeItems_cons2, serializeJson_str]
      rw [parseItemsF_succ]
      simp only [List.append_assoc, List.cons_append]
      rw [parseValueF_string]
      simp only [skipWs_comma, if_pos rfl]
      rw [parseItemsF_space]
      simp only [List.map_cons] at hih
      rw [hih]
      simp

/-- Parsing any serialized flat value. -/
theorem parseValueF_flat (v : Json) (hv : IsFlatVal v) :
    ∀ n, valueNeed v ≤ n → ∀ rest,
    parseValueF (n + 1) (serializeJson v ++ rest) = some (v, rest) := by
  intro n hn rest
  rcases hv with ⟨s⟩ | _ | ⟨ss⟩
  · exact parseValueF_string n s rest
  · exact parseValueF_null n rest
  · rcases ss with _ | ⟨s, ss2⟩
    · rw [serializeJson_arr]
      simp only [List.map_nil, serializeItems_nil, List.nil_append,
        List.cons_append, List.singleton_append]
      rw [parseValueF_succ, skipWs_lbrack]
      simp [skipWs_rbrack, show ¬ '[' = quoteC from by decide,
        show ¬ '[' = 'n' from by decide]
    · obtain ⟨k, rfl⟩ : ∃ k, n = k + 1 := ⟨n - 1, by
        simp [valueNeed] at hn; omega⟩
      have hk : (s :: ss2).length ≤ k := by
        simp [valueNeed] at hn
        simp
        omega
      have hitems := parseItemsF_strings (s :: ss2) (by simp) k hk rest
      have hhead : ∃ tl, serializeItems ((s :: ss2).map Json.str)
          ++ (']' :: rest) = quoteC :: tl := by
        rcases ss2 with _ | ⟨s2, ss3⟩
        · refine ⟨escapeString s ++ [quoteC] ++ ']' :: rest, ?_⟩
          rw [List.map_cons, List.map_nil, serializeItems_single,
            serializeJson_str, serializeString]
          simp
        · refine ⟨escapeString s ++ [quoteC]
              ++ (',' :: ' ' :: serializeItems ((s2 :: ss3).map Json.str))
              ++ (']' :: rest), ?_⟩
          rw [List.map_cons, List.map_cons, serializeItems_cons2,
            serializeJson_str, serializeString]
          simp
      obtain ⟨tl, htl⟩ := hhead
      rw [serializeJson_arr]
      simp only [List.cons_append, List.append_assoc, List.singleton_append,
        List.nil_append]
      rw [parseValueF_succ, skipWs_lbrack]
      simp only [show ¬ '[' = quoteC from by decide,
        show ¬ '[' = 'n' from by decide, if_neg, if_pos rfl, ite_false,
        ite_true, eq_self_iff_true, not_false_iff]
      rw [htl, skipWs_quote]
      simp only [show ¬ quoteC = ']' from by decide, if_neg, ite_false]
      rw [← htl, hitems]
      simp

/-- Fuel needed to parse an object with the given fields. -/
def fieldsNeed (fs : List (List Char × Json)) : Nat :=
  (fs.map (fun p => valueNeed p.2 + 1)).sum + 1

/-- Parsing serialized object entries whose values are flat. -/
theorem parseFieldsF_flat (fs : List (List Char × Json)) :
    fs ≠ [] → (∀ p ∈ fs, IsFlatVal p.2) → ∀ n, fieldsNeed fs ≤ n →
    ∀ rest : List Char,
    parseFieldsF (n + 1) (serializeFields fs ++ (rbraceC :: rest))
      = some (fs, rest) := by
  induction fs with
  | nil => intro hne; exact absurd rfl hne
  | cons f fs ih =>
    intro _ hflat n hn rest
    obtain ⟨k0, v0⟩ := f
    have hv0 : IsFlatVal v0 := hflat (k0, v0) (by simp)
    rcases fs with _ | ⟨f2, t⟩
    · obtain ⟨m, rfl⟩ : ∃ m, n = m + 1 :=
        ⟨n - 1, by simp [fieldsNeed] at hn; omega⟩
      have hm : valueNeed v0 ≤ m := by simp [fieldsNeed] at hn; omega
      rw [serializeFields_single, serializeString]
      simp only [List.cons_append, List.append_assoc, List.singleton_append,
        List.nil_append]
      rw [parseFieldsF_succ, skipWs_quote]
      simp only [if_pos rfl]
      rw [parseStringBody_escape]
      simp only [skipWs_colon, if_pos rfl]
      rw [parseValueF_space, parseValueF_flat v0 hv0 m hm]
      simp only [skipWs_rbraceC]
      simp [show ¬ rbraceC = ',' from by decide]
    · obtain ⟨m, rfl⟩ : ∃ m, n = m + 1 :=
        ⟨n - 1, by simp [fieldsNeed] at hn; omega⟩
      have hm : valueNeed v0 ≤ m := by simp [fieldsNeed] at hn; omega
      obtain ⟨m2, rfl⟩ : ∃ m2, m = m2 + 1 :=
        ⟨m - 1, by simp [fieldsNeed] at hn; omega⟩
      have hrec : fieldsNeed (f2 :: t) ≤ m2 + 1 := by
        simp [fieldsNeed] at hn ⊢; omega
      have hih := ih (by simp) (fun p hp => hflat p (by simp [hp]))
        (m2 + 1) hrec rest
      rw [serializeFields_cons2, serializeString]
      simp only [List.cons_append, List.append_assoc, List.singleton_append,
        List.nil_append]
      rw [parseFieldsF_succ, skipWs_quote]
      simp only [if_pos rfl]
      rw [parseStringBody_escape]
      simp only [skipWs_colon, if_pos rfl]
      rw [parseValueF_space, parseValueF_flat v0 hv0 (m2 + 1) hm]
      simp only [skipWs_comma, if_pos rfl]
      rw [parseFieldsF_space, hih]
      simp

/-- The first characters of a nonempty serialized field list form a quoted
key. -/
theorem serializeFields_head (fs : List (List Char × Json)) (hne : fs ≠ [])
    (rest : List Char) :
    ∃ tl, serializeFields fs ++ rest = quoteC :: tl := by
  rcases fs with _ | ⟨⟨k, v⟩, fs⟩
  · exact absurd rfl hne
  · rcases fs with _ | ⟨f2, t⟩
    · refine ⟨escapeString k ++ [quoteC] ++ (':' :: ' ' :: serializeJson v)
        ++ rest, ?_⟩
      rw [serializeFields_single, serializeString]
      simp
    · refine ⟨escapeString k ++ [quoteC] ++ (':' :: ' ' :: (serializeJson v
        ++ (',' :: ' ' :: serializeFields (f2 :: t)))) ++ rest, ?_⟩
      rw [serializeFields_cons2, serializeString]
      simp

/-- Parsing a serialized object value with flat fields. -/
theorem parseValueF_obj_flat (fs : List (List Char × Json)) (hne : fs ≠ [])
    (hflat : ∀ p ∈ fs, IsFlatVal p.2) :
    ∀ n, fieldsNeed fs + 1 ≤ n → ∀ rest,
    parseValueF (n + 1) (serializeJson (Json.obj fs) ++ rest)
      = some (Json.obj fs, rest) := by
  intro n hn rest
  obtain ⟨k, rfl⟩ : ∃ k, n = k + 1 := ⟨n - 1, by omega⟩
  have hk : fieldsNeed fs ≤ k := by omega
  have hfields := parseFieldsF_flat fs hne hflat k hk rest
  obtain ⟨tl, htl⟩ := serializeFields_head fs hne (rbraceC :: rest)
  rw [serializeJson_obj]
  simp only [List.cons_append, List.append_assoc, List.singleton_append,
    List.nil_append]
  rw [parseValueF_succ, skipWs_lbraceC]
  simp only [show ¬ lbraceC = quoteC from by decide,
    show ¬ lbraceC = 'n' from by decide,
    show ¬ lbraceC = '[' from by decide, if_neg, if_pos rfl, ite_false,
    ite_true, eq_self_iff_true, not_false_iff]
  rw [htl, skipWs_quote]
  simp only [show ¬ quoteC = rbraceC from by decide, if_neg, ite_false]
  rw [← htl, hfields]
  simp

theorem serializeString_length_ge (s : List Char) :
    2 ≤ (serializeString s).length := by
  rw [serializeString]
  simp

theorem serializeItems_strings_length_ge (ss : List (List Char)) :
    ss.length ≤ (serializeItems (ss.map Json.str)).length := by
  induction ss with
  | nil => simp [serializeItems_nil]
  | cons s ss ih =>
    rcases ss with _ | ⟨s2, ss2⟩
    · rw [List.map_cons, List.map_nil, serializeItems_single, serializeJson_str]
      have := serializeString_length_ge s
      simp
      omega
    · rw [List.map_cons, List.map_cons, serializeItems_cons2, serializeJson_str]
      have h1 := serializeString_length_ge s
      simp only [List.map_cons] at ih
      simp only [List.length_append, List.length_cons, List.length_map]
      simp only [List.length_cons, List.length_map] at ih
      omega

theorem serializeJson_length_ge_valueNeed (v : Json) (hv : IsFlatVal v) :
    valueNeed v ≤ (serializeJson v).length := by
  rcases hv with ⟨s⟩ | _ | ⟨ss⟩
  · rw [serializeJson_str, show valueNeed (Json.str s) = 1 from rfl]
    have := serializeString_length_ge s
    omega
  · rw [serializeJson, show valueNeed Json.null = 1 from rfl]
    simp
  · rw [serializeJson_arr, valueNeed]
    have := serializeItems_strings_length_ge ss
    simp
    omega

theorem serializeFields_length_ge (fs : List (List Char × Json)) :
    fs ≠ [] → (∀ p ∈ fs, IsFlatVal p.2) →
    fieldsNeed fs ≤ (serializeFields fs).length + 1 := by
  induction fs with
  | nil => intro hne; exact absurd rfl hne
  | cons f fs ih =>
    intro _ hflat
    obtain ⟨k0, v0⟩ := f
    have hv0 := serializeJson_length_ge_valueNeed v0 (hflat (k0, v0) (by simp))
    have hk0 := serializeString_length_ge k0
    rcases fs with _ | ⟨f2, t⟩
    · rw [serializeFields_single]
      simp only [fieldsNeed, List.map_cons, List.map_nil, List.sum_cons,
        List.sum_nil, List.length_append, List.length_cons]
      omega
    · have hih := ih (by simp) (fun p hp => hflat p (by simp [hp]))
      rw [serializeFields_cons2]
      simp only [fieldsNeed, List.map_cons, List.sum_cons,
        List.length_append, List.length_cons] at hih ⊢
      omega

/-- `loads` inverts `dumps` on every object with flat field values —
the shape of the §3 envelopes. -/
theorem loads_dumps_obj_flat (fs : List (List Char × Json)) (hne : fs ≠ [])
    (hflat : ∀ p ∈ fs, IsFlatVal p.2) :
    loads (dumps (Json.obj fs)) = some (Json.obj fs) := by
  have hL : fieldsNeed fs + 1 ≤ (serializeJson (Json.obj fs)).length := by
    have h1 := serializeFields_length_ge fs hne hflat
    rw [serializeJson_obj]
    simp
    omega
  obtain ⟨L, hLen⟩ : ∃ L, (serializeJson (Json.obj fs)).length = L := ⟨_, rfl⟩
  have hparse := parseValueF_obj_flat fs hne hflat L (by omega) []
  rw [List.append_nil] at hparse
  rw [loads, dumps]
  rw [show (String.mk (serializeJson (Json.obj fs))).toList
      = serializeJson (Json.obj fs) from rfl]
  rw [hLen, hparse]
  simp [skipWs]

/-- `loads` inverts `dumps` on every string value — the double-encoded
payload case. -/
theorem loads_dumps_str (s : List Char) :
    loads (dumps (Json.str s)) = some (Json.str s) := by
  have hparse := parseValueF_string (serializeString s).length s []
  rw [List.append_nil] at hparse
  rw [loads, dumps]
  rw [show (String.mk (serializeJson (Json.str s))).toList
      = serializeJson (Json.str s) from rfl]
  rw [serializeJson_str, hparse]
  simp [skipWs]

/-! ## Bus envelopes: encode and decode (§4.1)

The transport payloads are built by `json.dumps(msg.__dict__,
default=_json_default)`; the consumers parse with double-encoding
tolerance, reparse the timestamp with `_parse_datetime`, and construct
the dataclass by keyword expansion. -/

/-- Python exceptions the bus code paths distinguish: the DDS and Zenoh
consumers catch `json.JSONDecodeError` and `TypeError`; `ValueError`
(raised by `datetime.fromisoformat`) and `AttributeError` (attribute
access on `None`) are caught nowhere in the dispatch loops. -/
inductive PyError where
  | jsonDecodeError
  | typeError
  | valueError
  | attributeError

/-- Insertion into a Python `dict` held as an association list in insertion
order: an existing key is updated in place, a new key is appended (CPython
semantics; also how `json.loads` treats a duplicate object key — the last
value wins, the first position is kept). -/
def pyDictInsert (k : List Char) (v : Json) :
    List (List Char × Json) → List (List Char × Json)
  | [] => [(k, v)]
  | (k0, v0) :: t =>
    if k0 = k then (k0, v) :: t else (k0, v0) :: pyDictInsert k v t

/-- The Python dict `json.loads` builds from parsed object entries. -/
def pyDictOfFields (fs : List (List Char × Json)) : List (List Char × Json) :=
  fs.foldl (fun d p => pyDictInsert p.1 p.2 d) []

/-- Dict lookup: `d.get(k)`, and the membership test `k in d`. -/
def dictGet (k : List Char) : List (List Char × Json) → Option Json
  | [] => Option.none
  | (k0, v0) :: t => if k0 = k then some v0 else dictGet k t

/-- A dict value after `_parse_datetime`: the decoded JSON value, or the
`datetime` that replaced the `"timestamp"` string. -/
inductive DVal where
  | js (j : Json)
  | dt (d : PyDateTime)

/-- `_parse_datetime` (dds_provider.py:22-26; zenoh_provider.py:23-27 is
identical): when the dict holds a string under `"timestamp"`, replace it
in place by `datetime.fromisoformat` of it.  The `ValueError` raised on a
malformed string is not in the `except (json.JSONDecodeError, TypeError)`
tuple of the callers, so it propagates. -/
def _parse_datetime (d : List (List Char × Json)) :
    Except PyError (List (List Char × DVal)) :=
  match dictGet ("timestamp".toList) d with
  | some (Json.str s) =>
    match fromisoList s with
    | some ts =>
      Except.ok (d.map (fun p =>
        if p.1 = "timestamp".toList then (p.1, DVal.dt ts)
        else (p.1, DVal.js p.2)))
    | Option.none => Except.error PyError.valueError
  | _ => Except.ok (d.map (fun p => (p.1, DVal.js p.2)))

/-- Lookup in the reparsed dict. -/
def dvalGet (k : List Char) : List (List Char × DVal) → Option DVal
  | [] => Option.none
  | (k0, v0) :: t => if k0 = k then some v0 else dvalGet k t

/-- A required string field of a keyword dict. -/
def readStr : Option DVal → Option String
  | some (DVal.js (Json.str s)) => some (String.mk s)
  | _ => Option.none

/-- The required `datetime` field. -/
def readDt : Option DVal → Option PyDateTime
  | some (DVal.dt t) => some t
  | _ => Option.none

/-- Elements of a JSON array read as strings. -/
def readStrList : List Json → Option (List String)
  | [] => some []
  | x :: t =>
    match x with
    | Json.str s => (readStrList t).map (fun l => String.mk s :: l)
    | _ => Option.none

/-- The optional `media` field: an absent key and a JSON `null` both read
as `none` (the dataclass default and a decoded `null` are the same Python
`None`); an array of strings reads as the path list. -/
def readMedia : Option DVal → Option (Option (List String))
  | Option.none => some Option.none
  | some (DVal.js Json.null) => some Option.none
  | some (DVal.js (Json.arr xs)) => (readStrList xs).map some
  | _ => Option.none

/-- An optional string field (`reply_to`). -/
def readOptStr : Option DVal → Option (Option String)
  | Option.none => some Option.none
  | some (DVal.js Json.null) => some Option.none
  | some (DVal.js (Json.str s)) => some (some (String.mk s))
  | _ => Option.none

/-- The inbound envelope field names, in dataclass declaration order. -/
def inboundKeys : List (List Char) :=
  ["channel".toList, "sender_id".toList, "chat_id".toList,
   "content".toList, "media".toList, "timestamp".toList]

/-- The outbound envelope field names, in dataclass declaration order. -/
def outboundKeys : List (List Char) :=
  ["channel".toList, "chat_id".toList, "content".toList,
   "reply_to".toList, "timestamp".toList]

/-- Modelled from the spec: `InboundMessage(**data)`, keyword construction
of the §3 inbound envelope (bus/events.py is missing from src/).  An
unexpected keyword raises `TypeError` (`Option.none`, which the consumers
catch); `channel`, `sender_id`, `chat_id`, `content` and `timestamp` are
required, `media` is optional with default `None`.  A value of the wrong
shape also yields `Option.none`; a CPython dataclass would store it
unchecked — a divergence that cannot arise on the §3 encodings, whose
fields always carry these shapes. -/
def InboundMessage.fromKwargs (d : List (List Char × DVal)) :
    Option InboundMessage :=
  if d.all (fun p => inboundKeys.contains p.1) then
    match readStr (dvalGet ("channel".toList) d),
        readStr (dvalGet ("sender_id".toList) d),
        readStr (dvalGet ("chat_id".toList) d),
        readStr (dvalGet ("content".toList) d),
        readMedia (dvalGet ("media".toList) d),
        readDt (dvalGet ("timestamp".toList) d) with
    | some ch, some sid, some cid, some cnt, some md, some ts =>
      some ⟨ch, sid, cid, cnt, md, ts⟩
    | _, _, _, _, _, _ => Option.none
  else Option.none

/-- Modelled from the spec: `OutboundMessage(**data)` (bus/events.py is
missing from src/); `channel`, `chat_id`, `content` and `timestamp` are
required, `reply_to` is optional with default `None`. -/
def OutboundMessage.fromKwargs (d : List (List Char × DVal)) :
    Option OutboundMessage :=
  if d.all (fun p => outboundKeys.contains p.1) then
    match readStr (dvalGet ("channel".toList) d),
        readStr (dvalGet ("chat_id".toList) d),
        readStr (dvalGet ("content".toList) d),
        readOptStr (dvalGet ("reply_to".toList) d),
        readDt (dvalGet ("timestamp".toList) d) with
    | some ch, some cid, some cnt, some rt, some ts =>
      some ⟨ch, cid, cnt, rt, ts⟩
    | _, _, _, _, _ => Option.none
  else Option.none

/-- The `media` field under `json.dumps`: `None` becomes `null`, a path
list an array of strings. -/
def mediaJson : Option (List String) → Json
  | Option.none => Json.null
  | some ps => Json.arr (ps.map (fun p => Json.str p.toList))

/-- An optional string field under `json.dumps`. -/
def optStrJson : Option String → Json
  | Option.none => Json.null
  | some s => Json.str s.toList

/-- The JSON value `json.dumps(msg.__dict__, default=_json_default)`
serializes for an inbound envelope: the dataclass fields in declaration
order, the `datetime` rendered by `_json_default` (dds_provider.py:15-19)
as its `isoformat` string. -/
def inboundDictJson (m : InboundMessage) : Json :=
  Json.obj
    [("channel".toList, Json.str m.channel.toList),
       ("sender_id".toList, Json.str m.sender_id.toList),
       ("chat_id".toList, Json.str m.chat_id.toList),
       ("content".toList, Json.str m.content.toList),
       ("media".toList, mediaJson m.media),
       ("timestamp".toList, Json.str (isoformatList m.timestamp))]

/-- The JSON value serialized for an outbound envelope. -/
def outboundDictJson (m : OutboundMessage) : Json :=
  Json.obj
    [("channel".toList, Json.str m.channel.toList),
       ("chat_id".toList, Json.str m.chat_id.toList),
       ("content".toList, Json.str m.content.toList),
       ("reply_to".toList, optStrJson m.reply_to),
       ("timestamp".toList, Json.str (isoformatList m.timestamp))]

/-- `DDSProvider.publish_inbound` (dds_provider.py:83-89), the payload it
sends: `json.dumps(msg.__dict__, default=_json_default)`;
`ZenohProvider.publish_inbound` (zenoh_provider.py:96-102) builds the
same payload. -/
def publish_inbound (m : InboundMessage) : String :=
  dumps (inboundDictJson m)

/-- `DDSProvider.publish_outbound` (dds_provider.py:121-127) and
`ZenohProvider.publish_outbound` (zenoh_provider.py:148-156), the
payload. -/
def publish_outbound (m : OutboundMessage) : String :=
  dumps (outboundDictJson m)

/-- The dict stage of the inbound consumers: require a JSON object
(otherwise warn and return `None`), reparse the timestamp, construct the
envelope; the `TypeError` from construction is caught (`ok none`). -/
def decodeInboundJson (j : Json) : Except PyError (Option InboundMessage) :=
  match j with
  | Json.obj fs =>
    match _parse_datetime (pyDictOfFields fs) with
    | Except.error e => Except.error e
    | Except.ok d =>
      match InboundMessage.fromKwargs d with
      | some m => Except.ok (some m)
      | Option.none => Except.ok Option.none
  | _ => Except.ok Option.none

/-- The dict stage of the outbound consumers. -/
def decodeOutboundJson (j : Json) : Except PyError (Option OutboundMessage) :=
  match j with
  | Json.obj fs =>
    match _parse_datetime (pyDictOfFields fs) with
    | Except.error e => Except.error e
    | Except.ok d =>
      match OutboundMessage.fromKwargs d with
      | some m => Except.ok (some m)
      | Option.none => Except.ok Option.none
  | _ => Except.ok Option.none

/-- `DDSProvider.consume_inbound` (dds_provider.py:91-119), the parsing of
a received payload string: `json.loads`, parse once more when the result
is still a string (double-encoding tolerance), require a dict, reparse
the timestamp, construct.  `Except.ok Option.none` covers the caught
`json.JSONDecodeError` / `TypeError` and the non-dict warning path;
`Except.error` carries the uncaught `ValueError`. -/
def consume_inbound (data : String) :
    Except PyError (Option InboundMessage) :=
  match loads data with
  | Option.none => Except.ok Option.none
  | some (Json.str s) =>
    match loads (String.mk s) with
    | Option.none => Except.ok Option.none
    | some parsed => decodeInboundJson parsed
  | some j => decodeInboundJson j

/-- `DDSProvider.consume_outbound` (dds_provider.py:129-156): the same
parsing over the outbound envelope. -/
def consume_outbound (data : String) :
    Except PyError (Option OutboundMessage) :=
  match loads data with
  | Option.none => Except.ok Option.none
  | some (Json.str s) =>
    match loads (String.mk s) with
    | Option.none => Except.ok Option.none
    | some parsed => decodeOutboundJson parsed
  | some j => decodeOutboundJson j

/-- `ZenohProvider.consume_inbound` (zenoh_provider.py:104-146): once
`try_recv` yields a sample, the parsing of `sample.payload.to_string()`
is textually identical to the DDS parsing above. -/
def ZenohProvider.consume_inbound (data : String) :
    Except PyError (Option InboundMessage) :=
  Aisbot.consume_inbound data

theorem readStrList_map (ps : List String) :
    readStrList (ps.map (fun p => Json.str p.toList)) = some ps := by
  induction ps with
  | nil => rfl
  | cons p t ih =>
    simp only [List.map_cons, readStrList, ih]
    rfl

theorem readMedia_mediaJson (x : Option (List String)) :
    readMedia (some (DVal.js (mediaJson x))) = some x := by
  cases x with
  | none => rfl
  | some ps =>
    simp only [mediaJson, readMedia, readStrList_map]
    rfl

theorem readOptStr_optStrJson (x : Option String) :
    readOptStr (some (DVal.js (optStrJson x))) = some x := by
  cases x <;> rfl

theorem mediaJson_flat (x : Option (List String)) : IsFlatVal (mediaJson x) := by
  cases x with
  | none => exact IsFlatVal.null
  | some ps =>
    have h : mediaJson (some ps)
        = Json.arr (List.map Json.str (ps.map String.toList)) := by
      simp only [mediaJson, List.map_map]
      rfl
    rw [h]
    exact IsFlatVal.arr _

theorem optStrJson_flat (x : Option String) : IsFlatVal (optStrJson x) := by
  cases x with
  | none => exact IsFlatVal.null
  | some s => exact IsFlatVal.str _

/-- The inbound payload parses back to the encoded dict. -/
theorem loads_publish_inbound (m : InboundMessage) :
    loads (publish_inbound m)
      = some (Json.obj
          [("channel".toList, Json.str m.channel.toList),
       ("sender_id".toList, Json.str m.sender_id.toList),
       ("chat_id".toList, Json.str m.chat_id.toList),
       ("content".toList, Json.str m.content.toList),
       ("media".toList, mediaJson m.media),
       ("timestamp".toList, Json.str (isoformatList m.timestamp))]) := by
  refine loads_dumps_obj_flat _ (by simp) ?_
  intro p hp
  simp only [List.mem_cons, List.not_mem_nil, or_false] at hp
  rcases hp with h | h | h | h | h | h <;> subst h
  · exact IsFlatVal.str _
  · exact IsFlatVal.str _
  · exact IsFlatVal.str _
  · exact IsFlatVal.str _
  · exact mediaJson_flat m.media
  · exact IsFlatVal.str _

/-- The outbound payload parses back to the encoded dict. -/
theorem loads_publish_outbound (m : OutboundMessage) :
    loads (publish_outbound m)
      = some (Json.obj
          [("channel".toList, Json.str m.channel.toList),
       ("chat_id".toList, Json.str m.chat_id.toList),
       ("content".toList, Json.str m.content.toList),
       ("reply_to".toList, optStrJson m.reply_to),
       ("timestamp".toList, Json.str (isoformatList m.timestamp))]) := by
  refine loads_dumps_obj_flat _ (by simp) ?_
  intro p hp
  simp only [List.mem_cons, List.not_mem_nil, or_false] at hp
  rcases hp with h | h | h | h | h <;> subst h
  · exact IsFlatVal.str _
  · exact IsFlatVal.str _
  · exact IsFlatVal.str _
  · exact optStrJson_flat m.reply_to
  · exact IsFlatVal.str _

/-- Dict stage round-trip for the inbound envelope. -/
theorem decodeInboundJson_encode (m : InboundMessage)
    (hv : m.timestamp.valid) :
    decodeInboundJson (inboundDictJson m) = Except.ok (some m) := by
  have hfrom : fromisoList (isoformatList m.timestamp) = some m.timestamp :=
    fromisoformat_isoformat m.timestamp hv
  have hts : dictGet ("timestamp".toList) (pyDictOfFields
      [("channel".toList, Json.str m.channel.toList),
       ("sender_id".toList, Json.str m.sender_id.toList),
       ("chat_id".toList, Json.str m.chat_id.toList),
       ("content".toList, Json.str m.content.toList),
       ("media".toList, mediaJson m.media),
       ("timestamp".toList, Json.str (isoformatList m.timestamp))])
      = some (Json.str (isoformatList m.timestamp)) := rfl
  have hpd : _parse_datetime (pyDictOfFields
      [("channel".toList, Json.str m.channel.toList),
       ("sender_id".toList, Json.str m.sender_id.toList),
       ("chat_id".toList, Json.str m.chat_id.toList),
       ("content".toList, Json.str m.content.toList),
       ("media".toList, mediaJson m.media),
       ("timestamp".toList, Json.str (isoformatList m.timestamp))])
      = Except.ok
      [("channel".toList, DVal.js (Json.str m.channel.toList)),
       ("sender_id".toList, DVal.js (Json.str m.sender_id.toList)),
       ("chat_id".toList, DVal.js (Json.str m.chat_id.toList)),
       ("content".toList, DVal.js (Json.str m.content.toList)),
       ("media".toList, DVal.js (mediaJson m.media)),
       ("timestamp".toList, DVal.dt m.timestamp)] := by
    simp only [_parse_datetime, hts, hfrom]
    rfl
  have hch : readStr (dvalGet ("channel".toList)
      [("channel".toList, DVal.js (Json.str m.channel.toList)),
       ("sender_id".toList, DVal.js (Json.str m.sender_id.toList)),
       ("chat_id".toList, DVal.js (Json.str m.chat_id.toList)),
       ("content".toList, DVal.js (Json.str m.content.toList)),
       ("media".toList, DVal.js (mediaJson m.media)),
       ("timestamp".toList, DVal.dt m.timestamp)]) = some m.channel := rfl
  have hsid : readStr (dvalGet ("sender_id".toList)
      [("channel".toList, DVal.js (Json.str m.channel.toList)),
       ("sender_id".toList, DVal.js (Json.str m.sender_id.toList)),
       ("chat_id".toList, DVal.js (Json.str m.chat_id.toList)),
       ("content".toList, DVal.js (Json.str m.content.toList)),
       ("media".toList, DVal.js (mediaJson m.media)),
       ("timestamp".toList, DVal.dt m.timestamp)]) = some m.sender_id := rfl
  have hcid : readStr (dvalGet ("chat_id".toList)
      [("channel".toList, DVal.js (Json.str m.channel.toList)),
       ("sender_id".toList, DVal.js (Json.str m.sender_id.toList)),
       ("chat_id".toList, DVal.js (Json.str m.chat_id.toList)),
       ("content".toList, DVal.js (Json.str m.content.toList)),
       ("media".toList, DVal.js (mediaJson m.media)),
       ("timestamp".toList, DVal.dt m.timestamp)]) = some m.chat_id := rfl
  have hcnt : readStr (dvalGet ("content".toList)
      [("channel".toList, DVal.js (Json.str m.channel.toList)),
       ("sender_id".toList, DVal.js (Json.str m.sender_id.toList)),
       ("chat_id".toList, DVal.js (Json.str m.chat_id.toList)),
       ("content".toList, DVal.js (Json.str m.content.toList)),
       ("media".toList, DVal.js (mediaJson m.media)),
       ("timestamp".toList, DVal.dt m.timestamp)]) = some m.content := rfl
  have hmg : dvalGet ("media".toList)
      [("channel".toList, DVal.js (Json.str m.channel.toList)),
       ("sender_id".toList, DVal.js (Json.str m.sender_id.toList)),
       ("chat_id".toList, DVal.js (Json.str m.chat_id.toList)),
       ("content".toList, DVal.js (Json.str m.content.toList)),
       ("media".toList, DVal.js (mediaJson m.media)),
       ("timestamp".toList, DVal.dt m.timestamp)]
      = some (DVal.js (mediaJson m.media)) := rfl
  have hmed : readMedia (dvalGet ("media".toList)
      [("channel".toList, DVal.js (Json.str m.channel.toList)),
       ("sender_id".toList, DVal.js (Json.str m.sender_id.toList)),
       ("chat_id".toList, DVal.js (Json.str m.chat_id.toList)),
       ("content".toList, DVal.js (Json.str m.content.toList)),
       ("media".toList, DVal.js (mediaJson m.media)),
       ("timestamp".toList, DVal.dt m.timestamp)]) = some m.media := by
    rw [hmg, readMedia_mediaJson]
  have htsr : readDt (dvalGet ("timestamp".toList)
      [("channel".toList, DVal.js (Json.str m.channel.toList)),
       ("sender_id".toList, DVal.js (Json.str m.sender_id.toList)),
       ("chat_id".toList, DVal.js (Json.str m.chat_id.toList)),
       ("content".toList, DVal.js (Json.str m.content.toList)),
       ("media".toList, DVal.js (mediaJson m.media)),
       ("timestamp".toList, DVal.dt m.timestamp)]) = some m.timestamp := rfl
  have hall : (List.all
      [("channel".toList, DVal.js (Json.str m.channel.toList)),
       ("sender_id".toList, DVal.js (Json.str m.sender_id.toList)),
       ("chat_id".toList, DVal.js (Json.str m.chat_id.toList)),
       ("content".toList, DVal.js (Json.str m.content.toList)),
       ("media".toList, DVal.js (mediaJson m.media)),
       ("timestamp".toList, DVal.dt m.timestamp)]
      (fun p => inboundKeys.contains p.1)) = true := rfl
  have hkw : InboundMessage.fromKwargs
      [("channel".toList, DVal.js (Json.str m.channel.toList)),
       ("sender_id".toList, DVal.js (Json.str m.sender_id.toList)),
       ("chat_id".toList, DVal.js (Json.str m.chat_id.toList)),
       ("content".toList, DVal.js (Json.str m.content.toList)),
       ("media".toList, DVal.js (mediaJson m.media)),
       ("timestamp".toList, DVal.dt m.timestamp)] = some m := by
    simp only [InboundMessage.fromKwargs, hall, eq_self_iff_true, if_true,
      hch, hsid, hcid, hcnt, hmed, htsr]
    try rfl
  simp only [inboundDictJson, decodeInboundJson, hpd, hkw]

/-- Dict stage round-trip for the outbound envelope. -/
theorem decodeOutboundJson_encode (m : OutboundMessage)
    (hv : m.timestamp.valid) :
    decodeOutboundJson (outboundDictJson m) = Except.ok (some m) := by
  have hfrom : fromisoList (isoformatList m.timestamp) = some m.timestamp :=
    fromisoformat_isoformat m.timestamp hv
  have hts : dictGet ("timestamp".toList) (pyDictOfFields
      [("channel".toList, Json.str m.channel.toList),
       ("chat_id".toList, Json.str m.chat_id.toList),
       ("content".toList, Json.str m.content.toList),
       ("reply_to".toList, optStrJson m.reply_to),
       ("timestamp".toList, Json.str (isoformatList m.timestamp))])
      = some (Json.str (isoformatList m.timestamp)) := rfl
  have hpd : _parse_datetime (pyDictOfFields
      [("channel".toList, Json.str m.channel.toList),
       ("chat_id".toList, Json.str m.chat_id.toList),
       ("content".toList, Json.str m.content.toList),
       ("reply_to".toList, optStrJson m.reply_to),
       ("timestamp".toList, Json.str (isoformatList m.timestamp))])
      = Except.ok
      [("channel".toList, DVal.js (Json.str m.channel.toList)),
       ("chat_id".toList, DVal.js (Json.str m.chat_id.toList)),
       ("content".toList, DVal.js (Json.str m.content.toList)),
       ("reply_to".toList, DVal.js (optStrJson m.reply_to)),
       ("timestamp".toList, DVal.dt m.timestamp)] := by
    simp only [_parse_datetime, hts, hfrom]
    rfl
  have hch : readStr (dvalGet ("channel".toList)
      [("channel".toList, DVal.js (Json.str m.channel.toList)),
       ("chat_id".toList, DVal.js (Json.str m.chat_id.toList)),
       ("content".toList, DVal.js (Json.str m.content.toList)),
       ("reply_to".toList, DVal.js (optStrJson m.reply_to)),
       ("timestamp".toList, DVal.dt m.timestamp)]) = some m.channel := rfl
  have hcid : readStr (dvalGet ("chat_id".toList)
      [("channel".toList, DVal.js (Json.str m.channel.toList)),
       ("chat_id".toList, DVal.js (Json.str m.chat_id.toList)),
       ("content".toList, DVal.js (Json.str m.content.toList)),
       ("reply_to".toList, DVal.js (optStrJson m.reply_to)),
       ("timestamp".toList, DVal.dt m.timestamp)]) = some m.chat_id := rfl
  have hcnt : readStr (dvalGet ("content".toList)
      [("channel".toList, DVal.js (Json.str m.channel.toList)),
       ("chat_id".toList, DVal.js (Json.str m.chat_id.toList)),
       ("content".toList, DVal.js (Json.str m.content.toList)),
       ("reply_to".toList, DVal.js (optStrJson m.reply_to)),
       ("timestamp".toList, DVal.dt m.timestamp)]) = some m.content := rfl
  have hrg : dvalGet ("reply_to".toList)
      [("channel".toList, DVal.js (Json.str m.channel.toList)),
       ("chat_id".toList, DVal.js (Json.str m.chat_id.toList)),
       ("content".toList, DVal.js (Json.str m.content.toList)),
       ("reply_to".toList, DVal.js (optStrJson m.reply_to)),
       ("timestamp".toList, DVal.dt m.timestamp)]
      = some (DVal.js (optStrJson m.reply_to)) := rfl
  have hrt : readOptStr (dvalGet ("reply_to".toList)
      [("channel".toList, DVal.js (Json.str m.channel.toList)),
       ("chat_id".toList, DVal.js (Json.str m.chat_id.toList)),
       ("content".toList, DVal.js (Json.str m.content.toList)),
       ("reply_to".toList, DVal.js (optStrJson m.reply_to)),
       ("timestamp".toList, DVal.dt m.timestamp)]) = some m.reply_to := by
    rw [hrg, readOptStr_optStrJson]
  have htsr : readDt (dvalGet ("timestamp".toList)
      [("channel".toList, DVal.js (Json.str m.channel.toList)),
       ("chat_id".toList, DVal.js (Json.str m.chat_id.toList)),
       ("content".toList, DVal.js (Json.str m.content.toList)),
       ("reply_to".toList, DVal.js (optStrJson m.reply_to)),
       ("timestamp".toList, DVal.dt m.timestamp)]) = some m.timestamp := rfl
  have hall : (List.all
      [("channel".toList, DVal.js (Json.str m.channel.toList)),
       ("chat_id".toList, DVal.js (Json.str m.chat_id.toList)),
       ("content".toList, DVal.js (Json.str m.content.toList)),
       ("reply_to".toList, DVal.js (optStrJson m.reply_to)),
       ("timestamp".toList, DVal.dt m.timestamp)]
      (fun p => outboundKeys.contains p.1)) = true := rfl
  have hkw : OutboundMessage.fromKwargs
      [("channel".toList, DVal.js (Json.str m.channel.toList)),
       ("chat_id".toList, DVal.js (Json.str m.chat_id.toList)),
       ("content".toList, DVal.js (Json.str m.content.toList)),
       ("reply_to".toList, DVal.js (optStrJson m.reply_to)),
       ("timestamp".toList, DVal.dt m.timestamp)] = some m := by
    simp only [OutboundMessage.fromKwargs, hall, eq_self_iff_true, if_true,
      hch, hcid, hcnt, hrt, htsr]
    try rfl
  simp only [outboundDictJson, decodeOutboundJson, hpd, hkw]

/-- Single-encoded inbound round-trip. -/
theorem consume_inbound_publish (m : InboundMessage)
    (hv : m.timestamp.valid) :
    consume_inbound (publish_inbound m) = Except.ok (some m) := by
  simp only [consume_inbound, loads_publish_inbound m]
  exact decodeInboundJson_encode m hv

/-- Double-encoded inbound round-trip. -/
theorem consume_inbound_double (m : InboundMessage)
    (hv : m.timestamp.valid) :
    consume_inbound (dumps (Json.str (publish_inbound m).toList))
      = Except.ok (some m) := by
  have hmk : String.mk (publish_inbound m).toList = publish_inbound m := rfl
  simp only [consume_inbound, loads_dumps_str, hmk, loads_publish_inbound m]
  exact decodeInboundJson_encode m hv

/-- Single-encoded outbound round-trip. -/
theorem consume_outbound_publish (m : OutboundMessage)
    (hv : m.timestamp.valid) :
    consume_outbound (publish_outbound m) = Except.ok (some m) := by
  simp only [consume_outbound, loads_publish_outbound m]
  exact decodeOutboundJson_encode m hv

/-- Double-encoded outbound round-trip. -/
theorem consume_outbound_double (m : OutboundMessage)
    (hv : m.timestamp.valid) :
    consume_outbound (dumps (Json.str (publish_outbound m).toList))
      = Except.ok (some m) := by
  have hmk : String.mk (publish_outbound m).toList = publish_outbound m := rfl
  simp only [consume_outbound, loads_dumps_str, hmk, loads_publish_outbound m]
  exact decodeOutboundJson_encode m hv

/-- C6: decoding the provider JSON encoding of an envelope yields the
envelope back — the timestamp restored from its ISO-8601 string — for the
inbound consumers (DDS and Zenoh) and the outbound consumer; and a
double-encoded payload (the encoding JSON-quoted once more) decodes to
the same message as the single encoding. -/
theorem c6_envelope_roundtrip (mi : InboundMessage) (mo : OutboundMessage)
    (hi : mi.timestamp.valid) (ho : mo.timestamp.valid) :
    consume_inbound (publish_inbound mi) = Except.ok (some mi)
    ∧ consume_outbound (publish_outbound mo) = Except.ok (some mo)
    ∧ ZenohProvider.consume_inbound (publish_inbound mi)
        = Except.ok (some mi)
    ∧ consume_inbound (dumps (Json.str (publish_inbound mi).toList))
        = consume_inbound (publish_inbound mi)
    ∧ consume_outbound (dumps (Json.str (publish_outbound mo).toList))
        = consume_outbound (publish_outbound mo) := by
  refine ⟨consume_inbound_publish mi hi, consume_outbound_publish mo ho,
    ?_, ?_, ?_⟩
  · exact consume_inbound_publish mi hi
  · rw [consume_inbound_double mi hi, consume_inbound_publish mi hi]
  · rw [consume_outbound_double mo ho, consume_outbound_publish mo ho]

/-- A concrete inbound envelope for the C6 witness. -/
def c6msgIn : InboundMessage :=
  ⟨"telegram", "u7", "42", "hello", some ["a.png", "b.png"],
   ⟨2024, 5, 17, 10, 30, 5, 250000⟩⟩

/-- A concrete outbound envelope for the C6 witness. -/
def c6msgOut : OutboundMessage :=
  ⟨"telegram", "42", "done", Option.none, ⟨2024, 5, 17, 10, 30, 6, 0⟩⟩

/-- C6, witness: the validity hypotheses hold for the concrete envelopes
and the round-trip follows at them. -/
theorem c6_witness :
    (PyDateTime.valid c6msgIn.timestamp
      ∧ PyDateTime.valid c6msgOut.timestamp)
    ∧ (consume_inbound (publish_inbound c6msgIn) = Except.ok (some c6msgIn)
       ∧ consume_outbound (publish_outbound c6msgOut)
           = Except.ok (some c6msgOut)
       ∧ ZenohProvider.consume_inbound (publish_inbound c6msgIn)
           = Except.ok (some c6msgIn)
       ∧ consume_inbound (dumps (Json.str (publish_inbound c6msgIn).toList))
           = consume_inbound (publish_inbound c6msgIn)
       ∧ consume_outbound (dumps (Json.str (publish_outbound c6msgOut).toList))
           = consume_outbound (publish_outbound c6msgOut)) :=
  ⟨⟨by decide, by decide⟩,
   c6_envelope_roundtrip c6msgIn c6msgOut (by decide) (by decide)⟩

/-! ## Outbound dispatch loops (§4.1 failure model) -/

/-- Registry lookup with a default:
`self._outbound_subscribers.get(channel, [])`. -/
def subscribersGet {α : Type} (channel : String)
    (subs : List (String × List α)) : List α :=
  match alistGet channel subs with
  | some cbs => cbs
  | Option.none => []

/-- Modelled from the spec: the runtime object `OutboundMessage(**data)`
builds at squeue.py:96 (bus/events.py is missing from src/).  That code
path reparses no timestamp, and a CPython dataclass stores values
unchecked, so each field holds whatever JSON value the payload carried;
an absent `reply_to` defaults to `None`, the same runtime value a JSON
`null` decodes to. -/
structure RawOutbound where
  channel : Json
  chat_id : Json
  content : Json
  reply_to : Json
  timestamp : Json

/-- Modelled from the spec: keyword construction `OutboundMessage(**data)`
as squeue.py:96 reaches it, without a datetime reparse: an unexpected or
missing required keyword raises `TypeError` (`Option.none`); any value
shape is stored. -/
def RawOutbound.fromDict (d : List (List Char × Json)) : Option RawOutbound :=
  if d.all (fun p => outboundKeys.contains p.1) then
    match dictGet ("channel".toList) d, dictGet ("chat_id".toList) d,
        dictGet ("content".toList) d, dictGet ("timestamp".toList) d with
    | some ch, some cid, some cnt, some ts =>
      some ⟨ch, cid, cnt,
        (match dictGet ("reply_to".toList) d with
         | some r => r
         | Option.none => Json.null), ts⟩
    | _, _, _, _ => Option.none
  else Option.none

/-- The callbacks `self._outbound_subscribers.get(msg.channel, [])` selects
for the squeue dispatcher; a non-string `channel` never equals a
registered key (`subscribe_outbound` keys are strings), so it selects no
callbacks. -/
def squeueSubscribers (msg : RawOutbound)
    (subs : List (String × List (RawOutbound → Except String Unit))) :
    List (RawOutbound → Except String Unit) :=
  match msg.channel with
  | Json.str c => subscribersGet (String.mk c) subs
  | _ => []

/-- One iteration of `MessageBus.dispatch_outbound` (squeue.py:83-104),
given the polled payload (`Option.none` when `recv` yields nothing) and
the subscriber registry; a callback returning `Except.error` models a
callback exception, which the per-callback handler only logs.  The sole
handler around the body catches `asyncio.TimeoutError`, so a returned
`Except.error` is an exception that escapes `dispatch_outbound` and
terminates the dispatcher: the `AttributeError` from `msg.channel` while
`msg` is still `None` after an empty poll, the uncaught
`json.JSONDecodeError` from `json.loads`, and the uncaught `TypeError`
from keyword expansion. -/
def MessageBus.dispatch_outbound (data : Option String)
    (subs : List (String × List (RawOutbound → Except String Unit))) :
    Except PyError (List (Except String Unit)) :=
  match data with
  | Option.none => Except.error PyError.attributeError
  | some s =>
    match loads s with
    | Option.none => Except.error PyError.jsonDecodeError
    | some (Json.obj fs) =>
      match RawOutbound.fromDict (pyDictOfFields fs) with
      | some msg => Except.ok ((squeueSubscribers msg subs).map (fun cb => cb msg))
      | Option.none => Except.error PyError.typeError
    | some _ => Except.error PyError.typeError

/-- What one iteration of `DDSProvider.dispatch_outbound` does short of
raising: keep polling, drop a malformed payload with a warning, or
deliver to the registered callbacks. -/
inductive DispatchStep where
  | idle
  | dropped
  | delivered (results : List (Except String Unit))

/-- One iteration of `DDSProvider.dispatch_outbound`
(dds_provider.py:167-210): the payload parsing (lines 177-196) is
textually identical to `consume_outbound`, with `continue` on the caught
`json.JSONDecodeError` / `TypeError` and on a non-dict payload; the
`ValueError` from `_parse_datetime` is caught neither there nor by the
outer `except asyncio.TimeoutError` / `CancelledError` arms, so it
escapes and terminates the dispatcher.  Each callback runs under its own
logging handler. -/
def DDSProvider.dispatch_outbound (data : Option String)
    (subs : List (String × List (OutboundMessage → Except String Unit))) :
    Except PyError DispatchStep :=
  match data with
  | Option.none => Except.ok DispatchStep.idle
  | some s =>
    match consume_outbound s with
    | Except.error e => Except.error e
    | Except.ok Option.none => Except.ok DispatchStep.dropped
    | Except.ok (some msg) =>
      Except.ok (DispatchStep.delivered
        ((subscribersGet msg.channel subs).map (fun cb => cb msg)))

/-- An outbound payload whose `timestamp` string `fromisoformat`
rejects. -/
def c9badTsPayload : String :=
  dumps (Json.obj
    [("channel".toList, Json.str "tg".toList),
     ("chat_id".toList, Json.str "1".toList),
     ("content".toList, Json.str "x".toList),
     ("reply_to".toList, Json.null),
     ("timestamp".toList, Json.str "not-a-date".toList)])

/-- A well-formed outbound envelope on channel `tg`. -/
def c9msgOut : OutboundMessage :=
  ⟨"tg", "1", "hi", Option.none, ⟨2024, 1, 2, 3, 4, 5, 0⟩⟩

/-- Its payload. -/
def c9goodPayload : String := publish_outbound c9msgOut

/-- A registry with two callbacks on channel `tg`; the first raises. -/
def c9subs : List (String × List (OutboundMessage → Except String Unit)) :=
  [("tg", [fun _ => Except.error "boom", fun _ => Except.ok ()])]

/-- C9: the squeue dispatcher raises out of a single iteration — an empty
poll reaches `msg.channel` with `msg = None` (`AttributeError`) and a
malformed payload raises `json.JSONDecodeError` out of the loop — while
the DDS dispatcher keeps polling on an empty poll, drops a malformed
payload, but still lets the `ValueError` from a bad timestamp string
escape; on a well-formed payload every callback registered for the
channel is invoked and an error in one does not prevent the next. -/
theorem c9_dispatch_crashes :
    (∀ subs, MessageBus.dispatch_outbound Option.none subs
        = Except.error PyError.attributeError)
    ∧ (∀ subs, MessageBus.dispatch_outbound (some "oops") subs
        = Except.error PyError.jsonDecodeError)
    ∧ DDSProvider.dispatch_outbound Option.none []
        = Except.ok DispatchStep.idle
    ∧ DDSProvider.dispatch_outbound (some "oops") []
        = Except.ok DispatchStep.dropped
    ∧ (∀ subs, DDSProvider.dispatch_outbound (some c9badTsPayload) subs
        = Except.error PyError.valueError)
    ∧ DDSProvider.dispatch_outbound (some c9goodPayload) c9subs
        = Except.ok (DispatchStep.delivered
            [Except.error "boom", Except.ok ()]) := by
  have hbad : consume_outbound c9badTsPayload
      = Except.error PyError.valueError := by
    have hload : loads c9badTsPayload
        = some (Json.obj
            [("channel".toList, Json.str "tg".toList),
             ("chat_id".toList, Json.str "1".toList),
             ("content".toList, Json.str "x".toList),
             ("reply_to".toList, Json.null),
             ("timestamp".toList, Json.str "not-a-date".toList)]) := by
      refine loads_dumps_obj_flat _ (by simp) ?_
      intro p hp
      simp only [List.mem_cons, List.not_mem_nil, or_false] at hp
      rcases hp with h | h | h | h | h <;> subst h
      · exact IsFlatVal.str _
      · exact IsFlatVal.str _
      · exact IsFlatVal.str _
      · exact IsFlatVal.null
      · exact IsFlatVal.str _
    simp only [consume_outbound, hload]
    rfl
  have hgood : consume_outbound c9goodPayload = Except.ok (some c9msgOut) := by
    have h := consume_outbound_publish c9msgOut (by decide)
    simp only [c9goodPayload]
    exact h
  have heq : ∀ x : String, consume_outbound x = Except.ok (some c9msgOut) →
      DDSProvider.dispatch_outbound (some x) c9subs
        = Except.ok (DispatchStep.delivered
            [Except.error "boom", Except.ok ()]) := by
    intro x hx
    simp only [DDSProvider.dispatch_outbound, hx]
    rfl
  refine ⟨fun _ => rfl, fun _ => rfl, rfl, rfl, fun subs => ?_,
    heq c9goodPayload hgood⟩
  simp only [DDSProvider.dispatch_outbound, hbad]

end Aisbot
